import Mathlib

/-!
Verification development for the email-verifier library.

The TypeScript sources are shallowly embedded: pure functions become Lean
functions over `List Char` / `String`, JavaScript numbers become `ℚ`
(all arithmetic appearing in the modelled code is exact on rationals),
`Date.now()` timestamps become an explicit `now : ℚ` parameter, fallible
lookups become `Option`, and the process-wide mutable state (the two TTL
caches and the SMTP throttle) is threaded explicitly.  Network effects
(DNS answers, SMTP probe outcomes, SPF/DMARC lookups) enter as explicit
oracle inputs.  Human-readable `confidenceReasons` strings are abstracted
to parameterless tags (`Reason`): their formatting is narrative only and
no property depends on their text.
-/

namespace EmailVerifier

/-- JavaScript `String.prototype.trim` (whitespace at both ends). -/
def jsTrim (s : String) : String :=
  String.mk (((s.toList.dropWhile Char.isWhitespace).reverse.dropWhile
    Char.isWhitespace).reverse)

/-- JavaScript `String.prototype.toLowerCase`, character-wise. -/
def jsToLower (s : String) : String := String.mk (s.toList.map Char.toLower)

/-- Splits a character list at its LAST `'@'`: returns
(characters before it, characters after it), or `none` when no `'@'`
occurs.  Models `email.lastIndexOf('@')` followed by the two
`substring` calls. -/
def splitLastAmp : List Char → Option (List Char × List Char)
  | [] => none
  | c :: t =>
    match splitLastAmp t with
    | some (a, b) => some (c :: a, b)
    | none => if c = '@' then some ([], t) else none

/-- Boolean substring test: does `pat` occur contiguously in the list?
Models JavaScript `String.prototype.includes`. -/
def hasSub (pat : List Char) : List Char → Bool
  | [] => pat.isEmpty
  | c :: t => pat.isPrefixOf (c :: t) || hasSub pat t

/-- ASCII letter test for the `[a-zA-Z]` regex class. -/
def isAsciiAlpha (c : Char) : Bool :=
  ('a' ≤ c && c ≤ 'z') || ('A' ≤ c && c ≤ 'Z')

/-- ASCII alphanumeric test for the `[a-zA-Z0-9]` regex class. -/
def isAlnum (c : Char) : Bool :=
  isAsciiAlpha c || ('0' ≤ c && c ≤ '9')

/-- Membership in the special characters of the local-part class of
`EMAIL_REGEX`, written by code point to keep the source text free of
bracket characters: `! # $ % & ' * + . / = ? ^ _ \x60 \x7b | \x7d ~ -`. -/
def isLocalSpecial (c : Char) : Bool :=
  [33, 35, 36, 37, 38, 39, 42, 43, 46, 47, 61, 63, 94, 95, 96,
   123, 124, 125, 126, 45].contains c.toNat

/-- One character of the local-part class of `EMAIL_REGEX`. -/
def isLocalChar (c : Char) : Bool := isAlnum c || isLocalSpecial c

/-- One domain label of `EMAIL_REGEX`:
`[a-zA-Z0-9]` optionally followed by `[a-zA-Z0-9-]*[a-zA-Z0-9]`
(nonempty, alphanumeric at both ends, hyphens allowed inside). -/
def labelTest : List Char → Bool
  | [] => false
  | c :: rest =>
    isAlnum c &&
      (match rest.getLast? with
       | none => true
       | some lastc =>
         isAlnum lastc && rest.all (fun ch => isAlnum ch || ch = '-'))

/-- The domain part of `EMAIL_REGEX`: one or more dot-separated labels
followed by a final TLD of at least two ASCII letters. -/
def domainTest (dom : List Char) : Bool :=
  let parts := dom.splitOn '.'
  match parts.getLast? with
  | none => false
  | some tld =>
    parts.dropLast ≠ [] && parts.dropLast.all labelTest &&
      2 ≤ tld.length && tld.all isAsciiAlpha

/-- The whole `EMAIL_REGEX` test on the trimmed email: the two negative
lookaheads (no leading dot, no consecutive dots), a nonempty local part
over the local class, exactly one `'@'`, and the domain pattern. -/
def emailRegexTest (tl : List Char) : Bool :=
  !(tl.head? = some '.') &&
  !(hasSub ['.', '.'] tl) &&
  (match tl.splitOn '@' with
   | [loc, dom] => loc ≠ [] && loc.all isLocalChar && domainTest dom
   | _ => false)

/-- `isValidFormat` from `validators/format`: empty and overlong inputs
rejected, local/domain length bounds, no trailing dot in the local part,
then the RFC 5322 style regex on the trimmed string. -/
def isValidFormat (email : String) : Bool :=
  if email = "" then false
  else
    let tl := (jsTrim email).toList
    if 254 < tl.length || tl.length = 0 then false
    else
      match splitLastAmp tl with
      | none => false
      | some (loc, dom) =>
        if 64 < loc.length || loc.length = 0 then false
        else if 253 < dom.length || dom.length = 0 then false
        else if loc.getLast? = some '.' then false
        else emailRegexTest tl

/-- `extractDomain`: text after the last `'@'`, lower-cased; `none` when
the input is empty, has no `'@'`, or ends in `'@'`. -/
def extractDomain (email : String) : Option String :=
  if email = "" then none
  else
    match splitLastAmp email.toList with
    | none => none
    | some (_, aft) =>
      if aft = [] then none else some (jsToLower (String.mk aft))

/-- `extractLocalPart`: text before the last `'@'` (case preserved);
`none` when the input is empty, has no `'@'`, or starts with `'@'`. -/
def extractLocalPart (email : String) : Option String :=
  if email = "" then none
  else
    match splitLastAmp email.toList with
    | none => none
    | some (bef, _) =>
      if bef = [] then none else some (String.mk bef)

/-- `normalizeEmail`: trim then lower-case; `none` on the empty string. -/
def normalizeEmail (email : String) : Option String :=
  if email = "" then none else some (jsToLower (jsTrim email))

/-- The disposable-domain set from `detectors/disposable.ts`. -/
def DISPOSABLE_DOMAINS : List String := [
  "10minutemail.com", "10minutemail.net", "tempmail.com", "temp-mail.org", "guerrillamail.com", "guerrillamail.org",
  "guerrillamail.net", "sharklasers.com", "mailinator.com", "mailinator2.com", "mailinater.com", "throwaway.email",
  "throwawaymail.com", "fakeinbox.com", "trashmail.com", "trashmail.net", "mailnesia.com", "mytrashmail.com",
  "getairmail.com", "getnada.com", "tempail.com", "dispostable.com", "yopmail.com", "yopmail.fr",
  "yopmail.net", "cool.fr.nf", "jetable.fr.nf", "nospam.ze.tc", "nomail.xl.cx", "mega.zik.dj",
  "speed.1s.fr", "courriel.fr.nf", "moncourrier.fr.nf", "monemail.fr.nf", "monmail.fr.nf", "mailcatch.com",
  "mailexpire.com", "mailmoat.com", "spamgourmet.com", "spambox.us", "spamfree24.org", "spamherelots.com",
  "spamobox.com", "tempomail.fr", "temporaryemail.net", "temporaryforwarding.com", "tempr.email", "tempsky.com",
  "thankyou2010.com", "thisisnotmyrealemail.com", "throam.com", "tmpmail.net", "tmpmail.org", "tradermail.info",
  "wegwerfmail.de", "wegwerfmail.net", "wegwerfmail.org", "wh4f.org", "whyspam.me", "willselfdestruct.com",
  "xemaps.com", "xents.com", "xmaily.com", "xoxy.net", "zapmail.com", "zoemail.org",
  "mintemail.com", "mohmal.com", "emailondeck.com", "tempmailaddress.com", "burnermail.io", "maildrop.cc",
  "inboxkitten.com", "tempinbox.com", "fakemailgenerator.com", "emailfake.com", "generator.email", "crazymailing.com",
  "discard.email", "discardmail.com", "disposableaddress.com", "disposableinbox.com", "dropmail.me", "dumpmail.de",
  "emailtemporario.com.br", "eelmail.com", "fakemail.net", "filzmail.com", "fixmail.tk", "fleckens.hu",
  "freemail.ms", "getonemail.com", "gishpuppy.com", "grr.la", "guerillamail.biz", "guerillamail.com",
  "guerillamail.de", "guerillamail.info", "guerillamail.net", "guerillamail.org", "haltospam.com", "harakirimail.com",
  "imgof.com", "imstations.com", "incognitomail.com", "incognitomail.net", "incognitomail.org", "infocom.zp.ua",
  "instant-mail.de", "ipoo.org", "irish2me.com", "jetable.com", "kasmail.com", "kaspop.com",
  "keepmymail.com", "killmail.com", "killmail.net", "klzlv.com", "kulturbetrieb.info", "kurzepost.de",
  "lifebyfood.com", "link2mail.net", "litedrop.com", "lol.ovpn.to", "lookugly.com", "lopl.co.cc",
  "lortemail.dk", "lovemeleaveme.com", "lr78.com", "maboard.com", "mail-hierarchie.net", "mail-temporaire.fr",
  "mail.by", "mail.mezimages.net", "mail.zp.ua", "mail2rss.org", "mail333.com", "mailbidon.com",
  "mailblocks.com", "mailcatch.com", "mailde.de", "mailde.info", "maildx.com", "mailed.ro",
  "mailforspam.com", "mailfree.ga", "mailfreeonline.com", "mailguard.me", "mailimate.com", "mailin8r.com",
  "mailinater.com", "mailincubator.com", "mailismagic.com", "mailme.ir", "mailme.lv", "mailme24.com",
  "mailmetrash.com", "mailnull.com", "mailorg.org", "mailsac.com", "mailseal.de", "mailshell.com",
  "mailsiphon.com", "mailtemp.info", "mailtothis.com", "mailzilla.com", "mailzilla.org", "makemetheking.com"]

/-- The role-based local-part set from `detectors/role-based.ts`. -/
def ROLE_BASED_PREFIXES : List String := [
  "admin", "administrator", "postmaster", "hostmaster", "webmaster", "root",
  "sysadmin", "support", "help", "helpdesk", "customerservice", "customer-service",
  "customercare", "customer-care", "service", "tech", "technical", "techsupport",
  "tech-support", "info", "information", "contact", "contactus", "contact-us",
  "enquiries", "enquiry", "inquiries", "inquiry", "hello", "hi",
  "sales", "marketing", "press", "media", "pr", "advertising",
  "ads", "partnerships", "partner", "partners", "affiliate", "affiliates",
  "sponsors", "sponsorship", "billing", "accounts", "accounting", "finance",
  "invoices", "invoice", "payments", "payment", "orders", "order",
  "purchasing", "procurement", "hr", "humanresources", "human-resources", "jobs",
  "careers", "career", "recruiting", "recruitment", "talent", "hiring",
  "employment", "resume", "resumes", "cv", "legal", "compliance",
  "privacy", "abuse", "spam", "dmca", "copyright", "security",
  "fraud", "it", "noc", "ops", "operations", "devops",
  "engineering", "developers", "dev", "development", "bugs", "feedback",
  "mail", "email", "noreply", "no-reply", "donotreply", "do-not-reply",
  "mailer-daemon", "mailerdaemon", "bounce", "bounces", "notifications", "alerts",
  "newsletter", "news", "updates", "subscribe", "unsubscribe", "office",
  "team", "staff", "all", "everyone", "company", "general",
  "main", "reception", "front", "frontdesk", "front-desk", "shop",
  "store", "returns", "refunds", "shipping", "delivery", "tracking",
  "admissions", "registrar", "library", "dean"]

/-- The free-provider domain set from `detectors/free-provider.ts`. -/
def FREE_EMAIL_DOMAINS : List String := [
  "gmail.com", "googlemail.com", "outlook.com", "hotmail.com", "hotmail.co.uk", "hotmail.fr",
  "hotmail.de", "hotmail.it", "hotmail.es", "live.com", "live.co.uk", "live.fr",
  "live.de", "live.it", "live.es", "msn.com", "yahoo.com", "yahoo.co.uk",
  "yahoo.fr", "yahoo.de", "yahoo.it", "yahoo.es", "yahoo.ca", "yahoo.com.au",
  "yahoo.co.in", "yahoo.co.jp", "ymail.com", "rocketmail.com", "icloud.com", "me.com",
  "mac.com", "aol.com", "aim.com", "protonmail.com", "protonmail.ch", "proton.me",
  "pm.me", "zoho.com", "zohomail.com", "mail.com", "email.com", "gmx.com",
  "gmx.net", "gmx.de", "gmx.at", "gmx.ch", "web.de", "yandex.com",
  "yandex.ru", "ya.ru", "mail.ru", "inbox.ru", "list.ru", "bk.ru",
  "tutanota.com", "tutanota.de", "tutamail.com", "tuta.io", "fastmail.com", "fastmail.fm",
  "rediffmail.com", "sina.com", "qq.com", "163.com", "126.com", "yeah.net",
  "naver.com", "daum.net", "hanmail.net", "libero.it", "virgilio.it", "laposte.net",
  "orange.fr", "sfr.fr", "free.fr", "wanadoo.fr", "t-online.de", "arcor.de",
  "freenet.de", "comcast.net", "verizon.net", "att.net", "sbcglobal.net", "bellsouth.net",
  "cox.net", "charter.net", "earthlink.net", "juno.com", "netzero.net", "seznam.cz",
  "wp.pl", "o2.pl", "interia.pl", "onet.pl", "ukr.net", "rambler.ru",
  "bigmir.net", "abv.bg", "centrum.cz", "atlas.cz", "azet.sk", "zoznam.sk",
  "pobox.sk", "post.cz", "volny.cz", "tiscali.it", "alice.it", "tin.it",
  "blu.it", "supereva.it", "inwind.it", "iol.it", "kataweb.it", "jumpy.it"]

/-- The bundled common-first-name set from `analyzers/catchall.ts`. -/
def COMMON_FIRST_NAMES : List String := [
  "james", "john", "robert", "michael", "william", "david",
  "richard", "joseph", "thomas", "charles", "christopher", "daniel",
  "matthew", "anthony", "mark", "donald", "steven", "paul",
  "andrew", "joshua", "kenneth", "kevin", "brian", "george",
  "timothy", "ronald", "edward", "jason", "jeffrey", "ryan",
  "jacob", "gary", "nicholas", "eric", "jonathan", "stephen",
  "larry", "justin", "scott", "brandon", "benjamin", "samuel",
  "raymond", "gregory", "frank", "alexander", "patrick", "jack",
  "dennis", "jerry", "tyler", "aaron", "jose", "adam",
  "nathan", "mary", "patricia", "jennifer", "linda", "barbara",
  "elizabeth", "susan", "jessica", "sarah", "karen", "lisa",
  "nancy", "betty", "margaret", "sandra", "ashley", "kimberly",
  "emily", "donna", "michelle", "dorothy", "carol", "amanda",
  "melissa", "deborah", "stephanie", "rebecca", "sharon", "laura",
  "cynthia", "kathleen", "amy", "angela", "shirley", "anna",
  "brenda", "pamela", "emma", "nicole", "helen", "samantha",
  "katherine", "christine", "debra", "rachel", "carolyn", "janet",
  "catherine", "maria", "heather", "diane", "ruth", "julie",
  "alex", "max", "leo", "oscar", "oliver", "hugo",
  "felix", "lucas", "marco", "carlos", "andreas", "stefan",
  "jan", "peter", "hans", "lars", "erik", "magnus",
  "sven", "nils", "pierre", "jean", "marc", "andre",
  "philippe", "laurent", "michel", "alain", "yves", "giuseppe",
  "mario", "luigi", "paolo", "francesco", "antonio", "giovanni",
  "roberto", "pablo", "carlos", "jose", "miguel", "juan",
  "pedro", "rafael", "diego", "manuel"]


/-- `isDisposableDomain`: exact lookup of the lower-cased domain. -/
def isDisposableDomain (domain : String) : Bool :=
  if domain = "" then false else DISPOSABLE_DOMAINS.contains (jsToLower domain)

/-- `isDisposableEmail`: lower-cased text after the last `'@'` looked up
in the disposable set; `false` without an `'@'`. -/
def isDisposableEmail (email : String) : Bool :=
  if email = "" then false
  else
    match splitLastAmp email.toList with
    | none => false
    | some (_, aft) => isDisposableDomain (jsToLower (String.mk aft))

/-- `isRoleBasedLocalPart`: the lower-cased local part is looked up both
with the separators `._-` removed and verbatim. -/
def isRoleBasedLocalPart (localPart : String) : Bool :=
  if localPart = "" then false
  else
    let lower := jsToLower localPart
    let normalized :=
      String.mk (lower.toList.filter (fun c => !(c = '.' || c = '_' || c = '-')))
    if ROLE_BASED_PREFIXES.contains normalized then true
    else if ROLE_BASED_PREFIXES.contains lower then true
    else false

/-- `isRoleBasedEmail`: role test of the text before the last `'@'`;
`false` without an `'@'` or with an empty local part. -/
def isRoleBasedEmail (email : String) : Bool :=
  if email = "" then false
  else
    match splitLastAmp email.toList with
    | none => false
    | some (bef, _) =>
      if bef = [] then false else isRoleBasedLocalPart (String.mk bef)

/-- `isFreeEmailDomain`: exact lookup of the lower-cased domain. -/
def isFreeEmailDomain (domain : String) : Bool :=
  if domain = "" then false else FREE_EMAIL_DOMAINS.contains (jsToLower domain)

/-- `isFreeEmail`: lower-cased text after the last `'@'` looked up in the
free-provider set; `false` without an `'@'`. -/
def isFreeEmail (email : String) : Bool :=
  if email = "" then false
  else
    match splitLastAmp email.toList with
    | none => false
    | some (_, aft) => isFreeEmailDomain (jsToLower (String.mk aft))

/-- A known mail provider record from `providers.ts`. -/
structure MailProvider where
  name : String
  url : String
deriving DecidableEq, Repr

/-- The ordered provider substring table from `providers.ts`. -/
def PROVIDER_PATTERNS : List (String × MailProvider) := [
  ("google.com", ⟨"Google Workspace", "https://workspace.google.com"⟩),
  ("googlemail.com", ⟨"Google Workspace", "https://workspace.google.com"⟩),
  ("aspmx.l.google.com", ⟨"Google Workspace", "https://workspace.google.com"⟩),
  ("outlook.com", ⟨"Microsoft 365", "https://www.microsoft.com/microsoft-365"⟩),
  ("mail.protection.outlook.com", ⟨"Microsoft 365", "https://www.microsoft.com/microsoft-365"⟩),
  ("hotmail.com", ⟨"Microsoft Outlook", "https://outlook.com"⟩),
  ("pphosted.com", ⟨"Proofpoint", "https://www.proofpoint.com"⟩),
  ("ppe-hosted.com", ⟨"Proofpoint Essentials", "https://www.proofpoint.com/us/products/email-protection/essentials"⟩),
  ("mimecast.com", ⟨"Mimecast", "https://www.mimecast.com"⟩),
  ("barracudanetworks.com", ⟨"Barracuda", "https://www.barracuda.com"⟩),
  ("yahoodns.net", ⟨"Yahoo Mail", "https://mail.yahoo.com"⟩),
  ("yahoo.com", ⟨"Yahoo Mail", "https://mail.yahoo.com"⟩),
  ("zoho.com", ⟨"Zoho Mail", "https://www.zoho.com/mail"⟩),
  ("zoho.eu", ⟨"Zoho Mail", "https://www.zoho.com/mail"⟩),
  ("fastmail.com", ⟨"Fastmail", "https://www.fastmail.com"⟩),
  ("messagingengine.com", ⟨"Fastmail", "https://www.fastmail.com"⟩),
  ("protonmail.ch", ⟨"Proton Mail", "https://proton.me/mail"⟩),
  ("proton.me", ⟨"Proton Mail", "https://proton.me/mail"⟩),
  ("icloud.com", ⟨"iCloud Mail", "https://www.icloud.com/mail"⟩),
  ("apple.com", ⟨"Apple Mail", "https://www.apple.com"⟩),
  ("amazonses.com", ⟨"Amazon SES", "https://aws.amazon.com/ses"⟩),
  ("amazonaws.com", ⟨"Amazon SES", "https://aws.amazon.com/ses"⟩),
  ("sendgrid.net", ⟨"SendGrid", "https://sendgrid.com"⟩),
  ("mailgun.org", ⟨"Mailgun", "https://www.mailgun.com"⟩),
  ("postmarkapp.com", ⟨"Postmark", "https://postmarkapp.com"⟩),
  ("sparkpostmail.com", ⟨"SparkPost", "https://www.sparkpost.com"⟩),
  ("mandrillapp.com", ⟨"Mailchimp Transactional", "https://mailchimp.com/features/transactional-email"⟩),
  ("secureserver.net", ⟨"GoDaddy Email", "https://www.godaddy.com/email"⟩),
  ("emailsrvr.com", ⟨"Rackspace Email", "https://www.rackspace.com/email-hosting"⟩),
  ("privateemail.com", ⟨"Namecheap Private Email", "https://www.namecheap.com/hosting/email"⟩),
  ("ovh.net", ⟨"OVH Mail", "https://www.ovhcloud.com"⟩)]

/-- `detectProvider`: first MX hostname containing (case-insensitively)
a known pattern wins; patterns are tried in table order per host. -/
def detectProvider (mxRecords : List String) : Option MailProvider :=
  mxRecords.findSome? (fun mx =>
    PROVIDER_PATTERNS.findSome? (fun p =>
      if hasSub (jsToLower p.1).toList (jsToLower mx).toList then some p.2
      else none))

/-- JavaScript `Math.round`: round half up. -/
def jsRound (q : ℚ) : ℤ := ⌊q + 1/2⌋

/-- Finds the binding of `key` in an association list (JS `Map.get`). -/
def assocFind? (key : String) : List (String × β) → Option β
  | [] => none
  | (k, v) :: t => if k = key then some v else assocFind? key t

/-- Replaces the binding of `key` in place, or appends a new binding
(JS `Map.set`, preserving insertion order). -/
def assocSet (key : String) (v : β) : List (String × β) → List (String × β)
  | [] => [(key, v)]
  | (k, w) :: t => if k = key then (k, v) :: t else (k, w) :: assocSet key v t

/-- Removes the binding of `key` (JS `Map.delete`). -/
def assocErase (key : String) : List (String × β) → List (String × β)
  | [] => []
  | (k, w) :: t => if k = key then t else (k, w) :: assocErase key t

/-- One cache entry: a value with its absolute expiry time. -/
structure CacheEntry (α : Type) where
  value : α
  expiresAt : ℚ
deriving DecidableEq

/-- The TTL cache from `cache.ts`: an insertion-ordered map from string
keys to entries. -/
structure CacheStore (α : Type) where
  entries : List (String × CacheEntry α)
deriving DecidableEq

/-- Default cache TTL: one hour in milliseconds. -/
def DEFAULT_TTL : ℚ := 3600000

/-- Maximum number of cache entries before eviction. -/
def MAX_CACHE_SIZE : ℕ := 10000

/-- Number of entries dropped by `evictOldest` beyond cleanup:
`Math.ceil(MAX_CACHE_SIZE * 0.1)`. -/
def EVICT_COUNT : ℕ := (MAX_CACHE_SIZE + 9) / 10

/-- `Cache.get`: returns the value iff the entry exists and `now` is not
past its expiry; an expired entry is deleted by the read.  Returns the
value (if any) and the possibly-updated store. -/
def cacheGet (now : ℚ) (key : String) (c : CacheStore α) :
    Option α × CacheStore α :=
  match assocFind? key c.entries with
  | none => (none, c)
  | some e =>
    if e.expiresAt < now then (none, ⟨assocErase key c.entries⟩)
    else (some e.value, c)

/-- `Cache.cleanup`: drops every entry whose expiry lies strictly in the
past. -/
def cacheCleanup (now : ℚ) (c : CacheStore α) : CacheStore α :=
  ⟨c.entries.filter (fun p => !(p.2.expiresAt < now))⟩

/-- `Cache.evictOldest`: cleanup, then if still at capacity drop the
oldest 10 % of entries in insertion order. -/
def evictOldest (now : ℚ) (c : CacheStore α) : CacheStore α :=
  let c1 := cacheCleanup now c
  if MAX_CACHE_SIZE ≤ c1.entries.length then ⟨c1.entries.drop EVICT_COUNT⟩
  else c1

/-- `Cache.set`: evict when at capacity, then bind `key` to the value
with expiry `now + (ttl ?? DEFAULT_TTL)`. -/
def cacheSet (now : ℚ) (key : String) (v : α) (ttl : Option ℚ)
    (c : CacheStore α) : CacheStore α :=
  let c1 := if MAX_CACHE_SIZE ≤ c.entries.length then evictOldest now c else c
  ⟨assocSet key ⟨v, now + ttl.getD DEFAULT_TTL⟩ c1.entries⟩

/-- `emailCacheKey`: lower-case then trim. -/
def emailCacheKey (email : String) : String := jsTrim (jsToLower email)

/-- `domainCacheKey`: lower-case then trim. -/
def domainCacheKey (domain : String) : String := jsTrim (jsToLower domain)

/-- Throttle configuration from `throttle.ts` (`failureThreshold` is a
count; the remaining fields are numbers). -/
structure ThrottleConfig where
  maxTokens : ℚ
  refillRate : ℚ
  initialBackoff : ℚ
  maxBackoff : ℚ
  backoffMultiplier : ℚ
  failureThreshold : ℕ
deriving DecidableEq, Repr

/-- The default throttle configuration. -/
def DEFAULT_CONFIG : ThrottleConfig :=
  { maxTokens := 10, refillRate := 1, initialBackoff := 5000,
    maxBackoff := 300000, backoffMultiplier := 2, failureThreshold := 3 }

/-- Per-host throttle state. -/
structure ThrottleState where
  tokens : ℚ
  lastRefill : ℚ
  failureCount : ℕ
  backoffUntil : ℚ
deriving DecidableEq, Repr

/-- The throttle's host map (keyed by lower-cased host). -/
def ThrottleMap : Type := List (String × ThrottleState)

instance : DecidableEq ThrottleMap := by
  unfold ThrottleMap; infer_instance

/-- `Throttle.getState`: fetch the state for the lower-cased host,
creating (and inserting) a fresh full-bucket state on first reference. -/
def getState (cfg : ThrottleConfig) (now : ℚ) (m : ThrottleMap)
    (host : String) : ThrottleState × ThrottleMap :=
  let key := jsToLower host
  match assocFind? key m with
  | some st => (st, m)
  | none =>
    let st : ThrottleState :=
      { tokens := cfg.maxTokens, lastRefill := now, failureCount := 0,
        backoffUntil := 0 }
    (st, assocSet key st m)

/-- `Throttle.refillTokens`: add `elapsed_seconds * refillRate` tokens,
capped at `maxTokens`, and stamp the refill time. -/
def refillTokens (cfg : ThrottleConfig) (now : ℚ) (st : ThrottleState) :
    ThrottleState :=
  { st with
    tokens := min cfg.maxTokens (st.tokens + (now - st.lastRefill) / 1000 * cfg.refillRate),
    lastRefill := now }

/-- `Throttle.canProceed`: false while in backoff; otherwise refill and
test for at least one token. -/
def canProceed (cfg : ThrottleConfig) (now : ℚ) (m : ThrottleMap)
    (host : String) : Bool × ThrottleMap :=
  let (st, m1) := getState cfg now m host
  if now < st.backoffUntil then (false, m1)
  else
    let st2 := refillTokens cfg now st
    (decide (1 ≤ st2.tokens), assocSet (jsToLower host) st2 m1)

/-- `Throttle.consume`: refill, then take one token when available. -/
def consume (cfg : ThrottleConfig) (now : ℚ) (m : ThrottleMap)
    (host : String) : Bool × ThrottleMap :=
  let (st, m1) := getState cfg now m host
  let st2 := refillTokens cfg now st
  if 1 ≤ st2.tokens then
    (true, assocSet (jsToLower host) { st2 with tokens := st2.tokens - 1 } m1)
  else (false, assocSet (jsToLower host) st2 m1)

/-- `Throttle.recordSuccess`: clear the failure streak and any backoff. -/
def recordSuccess (cfg : ThrottleConfig) (now : ℚ) (m : ThrottleMap)
    (host : String) : ThrottleMap :=
  let (st, m1) := getState cfg now m host
  assocSet (jsToLower host) { st with failureCount := 0, backoffUntil := 0 } m1

/-- The backoff duration assigned at failure count `n` (once at or past
the threshold): `min(initialBackoff * multiplier ^ (n - threshold), maxBackoff)`. -/
def backoffDuration (cfg : ThrottleConfig) (n : ℕ) : ℚ :=
  min (cfg.initialBackoff * cfg.backoffMultiplier ^ (n - cfg.failureThreshold))
    cfg.maxBackoff

/-- `Throttle.recordFailure` on one host state: bump the failure count
and, once the count reaches the threshold, set
`backoffUntil := now + backoffDuration`. -/
def recordFailureState (cfg : ThrottleConfig) (now : ℚ)
    (st : ThrottleState) : ThrottleState :=
  let fc := st.failureCount + 1
  if cfg.failureThreshold ≤ fc then
    { st with failureCount := fc, backoffUntil := now + backoffDuration cfg fc }
  else { st with failureCount := fc }

/-- `Throttle.recordFailure` on the host map. -/
def recordFailure (cfg : ThrottleConfig) (now : ℚ) (m : ThrottleMap)
    (host : String) : ThrottleMap :=
  let (st, m1) := getState cfg now m host
  assocSet (jsToLower host) (recordFailureState cfg now st) m1

/-- An MX record. -/
structure MxRecord where
  exchange : String
  priority : ℤ
deriving DecidableEq, Repr

/-- The result of `checkDns`. -/
structure DnsResult where
  mxRecords : List MxRecord
  hasValidDns : Bool
deriving DecidableEq, Repr

/-- `lookupMx` from `validators/dns`, with the resolver's answer as an
oracle: `none` models a thrown resolver error or a raced-out timeout
(both yield `[]`); a successful answer is sorted ascending by priority
(stably, as the V8 comparator sort). -/
def lookupMx (ans : Option (List MxRecord)) : List MxRecord :=
  match ans with
  | none => []
  | some records =>
    if records.length = 0 then []
    else records.mergeSort (fun a b => decide (a.priority ≤ b.priority))

/-- `lookupA` with the resolver's answer as an oracle: errors and
timeouts yield `[]`. -/
def lookupA (ans : Option (List String)) : List String :=
  match ans with
  | none => []
  | some records => records

/-- `checkDns`: MX records if any; otherwise the RFC 5321 implicit-MX
fallback `[{domain, 0}]` when an A record exists; otherwise invalid. -/
def checkDns (domain : String) (mxAns : Option (List MxRecord))
    (aAns : Option (List String)) : DnsResult :=
  let mxRecords := lookupMx mxAns
  if 0 < mxRecords.length then { mxRecords := mxRecords, hasValidDns := true }
  else
    let aRecords := lookupA aAns
    if 0 < aRecords.length then
      { mxRecords := [{ exchange := domain, priority := 0 }], hasValidDns := true }
    else { mxRecords := [], hasValidDns := false }

/-- SMTP probe status. -/
inductive SmtpStatus where
  | accepted
  | rejected
  | unknown
  | skipped
deriving DecidableEq, Repr

/-- Per-stage SMTP timings in milliseconds. -/
structure SmtpTiming where
  connect : ℚ
  banner : ℚ
  ehlo : ℚ
  mailFrom : ℚ
  rcptTo : ℚ
  total : ℚ
deriving DecidableEq, Repr

/-- An SMTP probe result with optional detailed timing. -/
structure SmtpResultWithTiming where
  status : SmtpStatus
  responseCode : Option ℤ
  responseMessage : Option String
  responseTime : Option ℚ
  timing : Option SmtpTiming
deriving DecidableEq, Repr

/-- One event of the `probeWithTimingStats` loop: the `i`-th call to
`probeWithFallback`, or an inter-probe pause of the given duration. -/
inductive ProbeEvent where
  | probe (i : ℕ)
  | sleep (ms : ℚ)
deriving DecidableEq, Repr

/-- The record returned by `probeWithTimingStats`, extended with the
event trace of its loop. -/
structure ProbeStats where
  result : SmtpResultWithTiming
  timings : List SmtpTiming
  avgRcptToTime : ℚ
  minRcptToTime : ℚ
  maxRcptToTime : ℚ
  events : List ProbeEvent
deriving DecidableEq, Repr

/-- The default of the `probeCount` parameter of
`probeWithTimingStats`. -/
def defaultProbeCount : ℕ := 3

/-- The synthetic result returned when no probe ran. -/
def noProbesResult : SmtpResultWithTiming :=
  { status := .unknown, responseCode := none,
    responseMessage := some "No probes completed", responseTime := none,
    timing := none }

/-- Minimum of a list of rationals (`Math.min(...)` over a nonempty
list). -/
def listMin : List ℚ → ℚ
  | [] => 0
  | h :: t => t.foldl min h

/-- Maximum of a list of rationals. -/
def listMax : List ℚ → ℚ
  | [] => 0
  | h :: t => t.foldl max h

/-- The event trace of the `probeWithTimingStats` loop: probe `i`, then a
100 ms sleep whenever another probe follows. -/
def probeSchedule (probeCount : ℕ) : List ProbeEvent :=
  (List.range probeCount).flatMap
    (fun i => .probe i :: if i + 1 < probeCount then [.sleep 100] else [])

/-- The loop body of `probeWithTimingStats` folded over the successive
`probeWithFallback` outcomes: collect the timings of probes that carry
one, and keep the running result, which is overwritten by every
non-`unknown` outcome and by the very first outcome. -/
def probeFold (probeResults : List SmtpResultWithTiming) :
    List SmtpTiming × Option SmtpResultWithTiming :=
  probeResults.foldl
    (fun acc r =>
      (acc.1 ++ (match r.timing with | some t => [t] | none => []),
       match acc.2 with
       | none => some r
       | some f => if r.status ≠ .unknown then some r else some f))
    ([], none)

/-- `probeWithTimingStats`, with the list of successive
`probeWithFallback` outcomes (one per loop iteration, so its length is
the `probeCount` argument) as the probe oracle.  Statistics are taken
over the recorded `rcptTo` stage times that are strictly positive. -/
def probeWithTimingStats (probeResults : List SmtpResultWithTiming) :
    ProbeStats :=
  let (timings, finalResult) := probeFold probeResults
  let rcptToTimes := (timings.map (fun t => t.rcptTo)).filter (fun t => 0 < t)
  let avgRcptToTime :=
    if 0 < rcptToTimes.length then rcptToTimes.sum / rcptToTimes.length else 0
  let minRcptToTime := if 0 < rcptToTimes.length then listMin rcptToTimes else 0
  let maxRcptToTime := if 0 < rcptToTimes.length then listMax rcptToTimes else 0
  { result := finalResult.getD noProbesResult,
    timings := timings,
    avgRcptToTime := avgRcptToTime,
    minRcptToTime := minRcptToTime,
    maxRcptToTime := maxRcptToTime,
    events := probeSchedule probeResults.length }

/-- All characters in the `[a-z]` class. -/
def allLower (l : List Char) : Bool := l.all (fun c => 'a' ≤ c && c ≤ 'z')

/-- Separator class `[._-]` used by the analyzer splits. -/
def sepChar (c : Char) : Bool := c = '.' || c = '_' || c = '-'

/-- The language of `^[a-z]+\.[a-z]+$`: exactly one dot with a nonempty
lower-alpha run on each side. -/
def reFirstDotLast (l : List Char) : Bool :=
  match l.splitOn '.' with
  | [a, b] => a ≠ [] && allLower a && b ≠ [] && allLower b
  | _ => false

/-- The language of `^[a-z]+\.[a-z]\.[a-z]+$`. -/
def reFirstMLast (l : List Char) : Bool :=
  match l.splitOn '.' with
  | [a, m, b] =>
    a ≠ [] && allLower a && m.length = 1 && allLower m && b ≠ [] && allLower b
  | _ => false

/-- The language of `^[a-z]+_[a-z]+$`. -/
def reFirstUnderLast (l : List Char) : Bool :=
  match l.splitOn '_' with
  | [a, b] => a ≠ [] && allLower a && b ≠ [] && allLower b
  | _ => false

/-- The language of `^[a-z]+-[a-z]+$`. -/
def reFirstDashLast (l : List Char) : Bool :=
  match l.splitOn '-' with
  | [a, b] => a ≠ [] && allLower a && b ≠ [] && allLower b
  | _ => false

/-- The language of `^[a-z]{4,}[a-z]{3,}$`: all lower-alpha, length ≥ 7. -/
def reFirstlast (l : List Char) : Bool := allLower l && 7 ≤ l.length

/-- The language of `^[a-z][a-z]{3,}$`: all lower-alpha, length ≥ 4. -/
def reFlast (l : List Char) : Bool := allLower l && 4 ≤ l.length

/-- The language of `^[a-z]{3,}[a-z]$`: all lower-alpha, length ≥ 4. -/
def reFirstl (l : List Char) : Bool := allLower l && 4 ≤ l.length

/-- The result of `analyzeEmailPattern`. -/
structure PatternResult where
  score : ℚ
  pattern : Option String
deriving DecidableEq, Repr

/-- The `EMAIL_PATTERNS` table in SOURCE order (`analyzers/catchall.ts`):
matcher, score, pattern name. -/
def EMAIL_PATTERNS : List ((List Char → Bool) × ℚ × String) :=
  [(reFirstDotLast, 0.9, "first.last"),
   (reFirstlast, 0.7, "firstlast"),
   (reFirstUnderLast, 0.85, "first_last"),
   (reFlast, 0.6, "flast"),
   (reFirstMLast, 0.9, "first.m.last"),
   (reFirstDashLast, 0.85, "first-last"),
   (reFirstl, 0.5, "firstl")]

/-- The shared fallback of the pattern analyzer, reached when none of
the table regexes match: known first name among the `[._-]`-separated
tokens, then `^[a-z]{3,12}$`, then a digit test, else unknown. -/
def patternFallback (normalized : List Char) : PatternResult :=
  let parts := normalized.splitOnP sepChar
  if parts.any (fun part => COMMON_FIRST_NAMES.contains (String.mk part)) then
    { score := 0.6, pattern := some "contains_name" }
  else if allLower normalized && 3 ≤ normalized.length && normalized.length ≤ 12 then
    { score := 0.4, pattern := some "single_word" }
  else if normalized.any (fun c => '0' ≤ c && c ≤ '9') then
    { score := 0.2, pattern := some "contains_numbers" }
  else { score := 0.3, pattern := some "unknown" }

/-- `analyzeEmailPattern`: case-fold, try the `EMAIL_PATTERNS` table in
source order (first match wins), else the fallback; empty input scores 0. -/
def analyzeEmailPattern (localPart : String) : PatternResult :=
  if localPart = "" then { score := 0, pattern := none }
  else
    let normalized := (jsToLower localPart).toList
    match EMAIL_PATTERNS.findSome?
        (fun p => if p.1 normalized then
            some ({ score := p.2.1, pattern := some p.2.2 } : PatternResult)
          else none) with
    | some r => r
    | none => patternFallback normalized

/-- The pattern table in the ORDER OF THE SPECIFICATION (scores
descending), used as the reference model of claim C8. -/
def SPEC_EMAIL_PATTERNS : List ((List Char → Bool) × ℚ × String) :=
  [(reFirstDotLast, 0.9, "first.last"),
   (reFirstMLast, 0.9, "first.m.last"),
   (reFirstUnderLast, 0.85, "first_last"),
   (reFirstDashLast, 0.85, "first-last"),
   (reFirstlast, 0.7, "firstlast"),
   (reFlast, 0.6, "flast"),
   (reFirstl, 0.5, "firstl")]

/-- Modelled from the spec: the pattern analyzer with the spec-ordered
table and the same fallback (the reference side of claim C8). -/
def specAnalyzeEmailPattern (localPart : String) : PatternResult :=
  if localPart = "" then { score := 0, pattern := none }
  else
    let normalized := (jsToLower localPart).toList
    match SPEC_EMAIL_PATTERNS.findSome?
        (fun p => if p.1 normalized then
            some ({ score := p.2.1, pattern := some p.2.2 } : PatternResult)
          else none) with
    | some r => r
    | none => patternFallback normalized

/-- A `[._-]`-separated token that is purely `[a-z]{2,15}`. -/
def nameToken (l : List Char) : Bool := allLower l && 2 ≤ l.length && l.length ≤ 15

/-- The single-token tail of `analyzeNameLikeness`: known first name,
`^[a-z]{3,12}$`, digit-or-foreign-character test, else 0.3. -/
def nameLikenessTail (normalized : List Char) : ℚ :=
  if COMMON_FIRST_NAMES.contains (String.mk normalized) then 0.7
  else if allLower normalized && 3 ≤ normalized.length && normalized.length ≤ 12 then 0.5
  else if normalized.any (fun c => '0' ≤ c && c ≤ '9') ||
      normalized.any (fun c =>
        !(('a' ≤ c && c ≤ 'z') || ('A' ≤ c && c ≤ 'Z') ||
          c = '.' || c = '_' || c = '-')) then 0.2
  else 0.3

/-- `analyzeNameLikeness`: with at least two separator-split tokens,
score 0.95/0.75 when the first two are name-like (0.3 when one of them
is empty), otherwise fall through to the single-token tail. -/
def analyzeNameLikeness (localPart : String) : ℚ :=
  if localPart = "" then 0
  else
    let normalized := (jsToLower localPart).toList
    match normalized.splitOnP sepChar with
    | p0 :: p1 :: _ =>
      if p0 = [] || p1 = [] then 0.3
      else if nameToken p0 && nameToken p1 then
        if COMMON_FIRST_NAMES.contains (String.mk p0) then 0.95 else 0.75
      else nameLikenessTail normalized
    | _ => nameLikenessTail normalized

/-- Tags standing for the `confidenceReasons` narrative strings pushed by
the orchestrator (string formatting abstracted away). -/
inductive Reason where
  | invalidEmailFormat
  | couldNotExtractDomain
  | noValidDnsRecords
  | smtpThrottledBackoff
  | smtpRejectedRecipient
  | smtpConnectionFailed
  | insufficientTimingData
  | strongTimingSignal
  | goodTimingSignal
  | moderateTimingSignal
  | noTimingSignal
  | smtpCheckSkipped
  | uncommonEmailPattern
  | unusualEmailFormat
  | suspiciousEmailPattern
  | nonStandardNamingConventions
  | domainIsCatchAll
  | smtpAcceptedRecipient
  | notCatchAllDomain
  | properEmailSecurity
deriving DecidableEq, Repr

/-- The nine verification check booleans. -/
structure VerificationChecks where
  isValidSyntax : Bool
  isValidDomain : Bool
  canConnectSmtp : Bool
  isDeliverable : Bool
  isCatchAllDomain : Bool
  isDisposableEmail : Bool
  isRoleBasedAccount : Bool
  isFreeEmailProvider : Bool
  isUnknown : Bool
deriving DecidableEq, Repr

/-- The rounded timing comparison stored in
`catchAllSignals.timingAnalysis`. -/
structure TimingDetails where
  realAvgMs : ℤ
  fakeAvgMs : ℤ
  diffMs : ℤ
  diffPercent : ℤ
  probeCount : ℕ
deriving DecidableEq, Repr

/-- The catch-all signal record of the result details. -/
structure CatchAllSignals where
  patternMatch : ℚ
  patternName : Option String
  nameScore : ℚ
  timingScore : ℚ
  zScore : Option ℚ
  hasSPF : Bool
  hasDMARC : Bool
  mxCount : ℕ
  timingAnalysis : Option TimingDetails
deriving DecidableEq, Repr

/-- The `details` part of a verification result.  As in the source, the
`mxRecords` field of the details holds the MX hostnames. -/
structure VerificationDetails where
  formatValid : Bool
  mxRecords : List String
  smtpStatus : SmtpStatus
  catchAll : Option Bool
  provider : Option MailProvider
  catchAllSignals : Option CatchAllSignals
  confidenceReasons : List Reason
deriving DecidableEq, Repr

/-- The result of `verifyEmail`. -/
structure VerificationResult where
  email : String
  valid : Bool
  confidence : ℚ
  isSafeToSend : Bool
  checks : VerificationChecks
  details : VerificationDetails
deriving DecidableEq, Repr

/-- Verification options, already merged with `DEFAULT_OPTIONS`. -/
structure VerifyOptions where
  dnsTimeout : ℚ
  smtpTimeout : ℚ
  smtpCheck : Bool
  catchAllCheck : Bool
  senderEmail : String
  smtpPort : ℕ
deriving DecidableEq, Repr

/-- The default verification options. -/
def DEFAULT_OPTIONS : VerifyOptions :=
  { dnsTimeout := 5000, smtpTimeout := 10000, smtpCheck := true,
    catchAllCheck := true, senderEmail := "test@example.com", smtpPort := 25 }

/-- The fixed confidence constants of the orchestrator. -/
def CONFIDENCE_INVALID : ℚ := 0

/-- Confidence emitted on the `unknown` paths. -/
def CONFIDENCE_SMTP_UNKNOWN : ℚ := 0.5

/-- Confidence emitted when SMTP accepted and the domain is not
catch-all. -/
def CONFIDENCE_VERIFIED : ℚ := 0.95

/-- `TIMING_PROBE_COUNT`: probes per timing analysis in the
orchestrator. -/
def TIMING_PROBE_COUNT : ℕ := 2

/-- `generateCatchAllTestEmail`: prepend `x9x0` to the local part. -/
def generateCatchAllTestEmail (email : String) : String :=
  match extractLocalPart email, extractDomain email with
  | some localPart, some domain => "x9x0" ++ localPart ++ "@" ++ domain
  | _, _ => email

/-- `createDefaultChecks`. -/
def createDefaultChecks : VerificationChecks :=
  { isValidSyntax := false, isValidDomain := false, canConnectSmtp := false,
    isDeliverable := false, isCatchAllDomain := false,
    isDisposableEmail := false, isRoleBasedAccount := false,
    isFreeEmailProvider := false, isUnknown := true }

/-- `createDefaultSignals`. -/
def createDefaultSignals : CatchAllSignals :=
  { patternMatch := 0, patternName := none, nameScore := 0,
    timingScore := 0.5, zScore := none, hasSPF := false, hasDMARC := false,
    mxCount := 0, timingAnalysis := none }

/-- `calculateZScore`: difference over the estimated deviation; with a
zero deviation, a rough estimate `diff / 50` once the difference exceeds
100 ms. -/
def calculateZScore (realAvg fakeAvg fakeStdDev : ℚ) : ℚ :=
  if fakeStdDev = 0 then
    let diff := |realAvg - fakeAvg|
    if 100 < diff then diff / 50 else 0
  else |realAvg - fakeAvg| / fakeStdDev

/-- The output of `analyzeTimingDifference` (z-score variant). -/
structure TimingAnalysisOut where
  zScore : ℚ
  confidence : ℚ
  reason : Reason
deriving DecidableEq, Repr

/-- `analyzeTimingDifference` (z-score variant): zero averages give the
insufficient-data outcome; otherwise the deviation is estimated as
`max(fakeAvg * 0.3, 30)` and the z-score is banded at 5 / 3 / 2. -/
def analyzeTimingDifference (realAvg fakeAvg : ℚ) : TimingAnalysisOut :=
  if realAvg = 0 ∨ fakeAvg = 0 then
    { zScore := 0, confidence := 0.5, reason := .insufficientTimingData }
  else
    let estimatedStdDev := max (fakeAvg * 0.3) 30
    let zScore := calculateZScore realAvg fakeAvg estimatedStdDev
    if 5 < zScore then
      { zScore := zScore, confidence := 0.85, reason := .strongTimingSignal }
    else if 3 < zScore then
      { zScore := zScore, confidence := 0.75, reason := .goodTimingSignal }
    else if 2 < zScore then
      { zScore := zScore, confidence := 0.65, reason := .moderateTimingSignal }
    else
      { zScore := zScore, confidence := 0.5, reason := .noTimingSignal }

/-- `getPatternPenalty`: non-positive penalty with an optional reason
tag. -/
def getPatternPenalty (patternScore nameScore : ℚ) : ℚ × Option Reason :=
  if 0.7 ≤ patternScore then (0, none)
  else if 0.5 ≤ patternScore then
    if 0.7 ≤ nameScore then (0, none)
    else (-0.05, some .uncommonEmailPattern)
  else if 0.3 ≤ patternScore then
    if 0.7 ≤ nameScore then (-0.1, some .unusualEmailFormat)
    else (-0.15, some .suspiciousEmailPattern)
  else (-0.25, some .nonStandardNamingConventions)

/-- The network-effect oracle of one `verifyEmail` call: the value
`checkDns` would produce for the recipient domain, the two
`probeWithTimingStats` outputs (real recipient and the `x9x0` synthetic
recipient), and the SPF/DMARC lookups. -/
structure VerifyEnv where
  dnsAnswer : DnsResult
  realStats : ProbeStats
  fakeStats : ProbeStats
  hasSPF : Bool
  hasDMARC : Bool
deriving DecidableEq, Repr

/-- The process-wide mutable state touched by `verifyEmail`. -/
structure VerifyState where
  emailCache : CacheStore VerificationResult
  dnsCache : CacheStore DnsResult
  throttle : ThrottleMap
deriving DecidableEq

/-- The outcome of one `verifyEmail` call: the result, the final state,
and the trace of `emailCache.set` events the call performed. -/
structure VerifyOut where
  result : VerificationResult
  state : VerifyState
  emailWrites : List (String × VerificationResult)
deriving DecidableEq

/-- Step 2 of the orchestrator: the DNS result for the domain, from the
domain cache when present, else from the resolver oracle (which is then
cached). -/
def resolveDns (env : VerifyEnv) (now : ℚ) (dc : CacheStore DnsResult)
    (domain : String) : DnsResult × CacheStore DnsResult :=
  let g := cacheGet now (domainCacheKey domain) dc
  match g.1 with
  | some r => (r, g.2)
  | none =>
    (env.dnsAnswer,
     cacheSet now (domainCacheKey domain) env.dnsAnswer none g.2)

/-- The confidence-synthesis block of the orchestrator (step 10):
0.7 when SMTP was skipped; on a detected catch-all the z-score band
(0.85 / 0.75 / 0.65 / 0.5 on `zScore ?? 0`) plus the pattern penalty
when negative, clamped to `[0, 0.85]`; else 0.95.  Returns the
confidence, the `isUnknown` flag and the reasons the block pushes. -/
def synthesizeConfidence (smtpStatus : SmtpStatus) (catchAll : Option Bool)
    (zScoreOpt : Option ℚ) (patternScore nameScore : ℚ) :
    ℚ × Bool × List Reason :=
  if smtpStatus = .skipped then (0.7, true, [.smtpCheckSkipped])
  else if catchAll = some true then
    let zScore := zScoreOpt.getD 0
    let band : ℚ × Bool :=
      if 5 < zScore then (0.85, false)
      else if 3 < zScore then (0.75, false)
      else if 2 < zScore then (0.65, true)
      else (0.5, true)
    let pp := getPatternPenalty patternScore nameScore
    let withPenalty := if pp.1 < 0 then band.1 + pp.1 else band.1
    (max 0 (min withPenalty 0.85), band.2,
     (if pp.1 < 0 then
        match pp.2 with | some r => [r] | none => []
      else []) ++ [.domainIsCatchAll])
  else (CONFIDENCE_VERIFIED, false,
    [.smtpAcceptedRecipient, .notCatchAllDomain])

/-- Steps 7–12 of the orchestrator, shared by the SMTP-ran and
SMTP-skipped routes: branch on the probe status, optionally run the
catch-all probe and timing analysis, compute pattern/name signals and
SPF/DMARC, synthesize the confidence, decide `isSafeToSend`, and cache
the result on the completing paths. -/
def verifyAfterSmtp (env : VerifyEnv) (now : ℚ) (email : String)
    (opts : VerifyOptions) (st : VerifyState)
    (normalizedEmail : Option String) (mxHosts : List String)
    (provider : Option MailProvider) (checks : VerificationChecks)
    (smtpStatus : SmtpStatus) (realAvgRcptToTime : ℚ) : VerifyOut :=
  if smtpStatus = .rejected then
    let result : VerificationResult :=
      { email := email, valid := false, confidence := CONFIDENCE_INVALID,
        isSafeToSend := false,
        checks := { checks with isUnknown := false },
        details :=
          { formatValid := true, mxRecords := mxHosts,
            smtpStatus := smtpStatus, catchAll := none, provider := provider,
            catchAllSignals := none,
            confidenceReasons := [.smtpRejectedRecipient] } }
    match normalizedEmail with
    | some ne =>
      { result := result,
        state := { st with
          emailCache := cacheSet now (emailCacheKey ne) result none st.emailCache },
        emailWrites := [(emailCacheKey ne, result)] }
    | none => { result := result, state := st, emailWrites := [] }
  else if smtpStatus = .unknown then
    { result :=
        { email := email, valid := true, confidence := CONFIDENCE_SMTP_UNKNOWN,
          isSafeToSend := false,
          checks := { checks with isUnknown := true },
          details :=
            { formatValid := true, mxRecords := mxHosts,
              smtpStatus := smtpStatus, catchAll := none, provider := provider,
              catchAllSignals := none,
              confidenceReasons := [.smtpConnectionFailed] } },
      state := st, emailWrites := [] }
  else
    -- Step 4: catch-all detection with timing analysis
    let signals0 := { createDefaultSignals with mxCount := mxHosts.length }
    let step4 :
        Option Bool × VerificationChecks × CatchAllSignals × List Reason :=
      if opts.catchAllCheck && smtpStatus = .accepted && !mxHosts.isEmpty then
        let fakeStats := env.fakeStats
        let fakeAvgRcptToTime := fakeStats.avgRcptToTime
        let catchAll := fakeStats.result.status = .accepted
        let ta := analyzeTimingDifference realAvgRcptToTime fakeAvgRcptToTime
        let signals1 :=
          { signals0 with
            timingScore := ta.confidence, zScore := some ta.zScore,
            timingAnalysis :=
              if 0 < realAvgRcptToTime ∧ 0 < fakeAvgRcptToTime then
                some
                  { realAvgMs := jsRound realAvgRcptToTime,
                    fakeAvgMs := jsRound fakeAvgRcptToTime,
                    diffMs := jsRound (fakeAvgRcptToTime - realAvgRcptToTime),
                    diffPercent :=
                      jsRound ((fakeAvgRcptToTime - realAvgRcptToTime) /
                        realAvgRcptToTime * 100),
                    probeCount := TIMING_PROBE_COUNT }
              else none }
        (some catchAll, { checks with isCatchAllDomain := catchAll },
         signals1, [ta.reason])
      else (none, checks, signals0, [])
    let catchAll := step4.1
    let checks4 := step4.2.1
    -- Step 5: pattern, name, SPF and DMARC signals
    let localPart := extractLocalPart email
    let patternResult := analyzeEmailPattern (localPart.getD "")
    let nameScore := analyzeNameLikeness (localPart.getD "")
    let signals :=
      { step4.2.2.1 with
        patternMatch := patternResult.score,
        patternName := patternResult.pattern, nameScore := nameScore,
        hasSPF := env.hasSPF, hasDMARC := env.hasDMARC }
    -- Confidence synthesis
    let synth := synthesizeConfidence smtpStatus catchAll signals.zScore
      patternResult.score nameScore
    let checksF := { checks4 with isUnknown := synth.2.1 }
    let reasons :=
      step4.2.2.2 ++ synth.2.2 ++
        (if env.hasSPF && env.hasDMARC then [.properEmailSecurity] else [])
    let isSafeToSend :=
      checksF.isValidSyntax && checksF.isValidDomain &&
        checksF.isDeliverable && !checksF.isDisposableEmail &&
        !checksF.isRoleBasedAccount &&
        (!(catchAll = some true) || decide (2 < signals.zScore.getD 0))
    let result : VerificationResult :=
      { email := email, valid := true, confidence := synth.1,
        isSafeToSend := isSafeToSend, checks := checksF,
        details :=
          { formatValid := true, mxRecords := mxHosts,
            smtpStatus := smtpStatus, catchAll := catchAll,
            provider := provider, catchAllSignals := some signals,
            confidenceReasons := reasons } }
    match normalizedEmail with
    | some ne =>
      { result := result,
        state := { st with
          emailCache :=
            cacheSet now (emailCacheKey ne) result none st.emailCache },
        emailWrites := [(emailCacheKey ne, result)] }
    | none => { result := result, state := st, emailWrites := [] }

/-- Steps 2–6 of the orchestrator after a cache miss: static detections,
the syntax gate, DNS (with the domain cache), provider detection, the
throttle gate and the real-recipient probe, handing over to
`verifyAfterSmtp`. -/
def verifyEmailBody (env : VerifyEnv) (now : ℚ) (email : String)
    (opts : VerifyOptions) (st : VerifyState)
    (normalizedEmail : Option String) : VerifyOut :=
  let checks0 :=
    { createDefaultChecks with
      isDisposableEmail := isDisposableEmail email,
      isRoleBasedAccount := isRoleBasedEmail email,
      isFreeEmailProvider := isFreeEmail email,
      isValidSyntax := isValidFormat email }
  if !isValidFormat email then
    { result :=
        { email := email, valid := false, confidence := CONFIDENCE_INVALID,
          isSafeToSend := false, checks := checks0,
          details :=
            { formatValid := false, mxRecords := [], smtpStatus := .skipped,
              catchAll := none, provider := none, catchAllSignals := none,
              confidenceReasons := [.invalidEmailFormat] } },
      state := st, emailWrites := [] }
  else
    match extractDomain email with
    | none =>
      { result :=
          { email := email, valid := false, confidence := CONFIDENCE_INVALID,
            isSafeToSend := false, checks := checks0,
            details :=
              { formatValid := false, mxRecords := [], smtpStatus := .skipped,
                catchAll := none, provider := none, catchAllSignals := none,
                confidenceReasons := [.couldNotExtractDomain] } },
        state := st, emailWrites := [] }
    | some domain =>
      let dns := resolveDns env now st.dnsCache domain
      let dnsResult := dns.1
      let st1 := { st with dnsCache := dns.2 }
      let checks1 := { checks0 with isValidDomain := dnsResult.hasValidDns }
      if !dnsResult.hasValidDns then
        let result : VerificationResult :=
          { email := email, valid := false, confidence := CONFIDENCE_INVALID,
            isSafeToSend := false,
            checks := { checks1 with isUnknown := false },
            details :=
              { formatValid := true, mxRecords := [], smtpStatus := .skipped,
                catchAll := none, provider := none, catchAllSignals := none,
                confidenceReasons := [.noValidDnsRecords] } }
        match normalizedEmail with
        | some ne =>
          { result := result,
            state := { st1 with
              emailCache :=
                cacheSet now (emailCacheKey ne) result none st1.emailCache },
            emailWrites := [(emailCacheKey ne, result)] }
        | none => { result := result, state := st1, emailWrites := [] }
      else
        let mxHosts := dnsResult.mxRecords.map (fun mx => mx.exchange)
        let provider := detectProvider mxHosts
        let primaryMx := mxHosts.headD ""
        if opts.smtpCheck && !mxHosts.isEmpty && primaryMx ≠ "" then
          let cp := canProceed DEFAULT_CONFIG now st1.throttle primaryMx
          if !cp.1 then
            { result :=
                { email := email, valid := true,
                  confidence := CONFIDENCE_SMTP_UNKNOWN, isSafeToSend := false,
                  checks := { checks1 with isUnknown := true },
                  details :=
                    { formatValid := true, mxRecords := mxHosts,
                      smtpStatus := .unknown, catchAll := none,
                      provider := provider, catchAllSignals := none,
                      confidenceReasons := [.smtpThrottledBackoff] } },
              state := { st1 with throttle := cp.2 }, emailWrites := [] }
          else
            let th2 := (consume DEFAULT_CONFIG now cp.2 primaryMx).2
            let realStats := env.realStats
            let smtpStatus := realStats.result.status
            let checks2 :=
              { checks1 with
                canConnectSmtp := smtpStatus ≠ .unknown,
                isDeliverable := smtpStatus = .accepted }
            let th3 :=
              if smtpStatus = .unknown then
                recordFailure DEFAULT_CONFIG now th2 primaryMx
              else recordSuccess DEFAULT_CONFIG now th2 primaryMx
            verifyAfterSmtp env now email opts { st1 with throttle := th3 }
              normalizedEmail mxHosts provider checks2 smtpStatus
              realStats.avgRcptToTime
        else
          verifyAfterSmtp env now email opts st1 normalizedEmail mxHosts
            provider checks1 .skipped 0

/-- `verifyEmail`: the full orchestrator including the email-cache
short-circuit (step 1). -/
def verifyEmail (env : VerifyEnv) (now : ℚ) (email : String)
    (opts : VerifyOptions) (st : VerifyState) : VerifyOut :=
  match normalizeEmail email with
  | some ne =>
    let g := cacheGet now (emailCacheKey ne) st.emailCache
    match g.1 with
    | some cached =>
      { result := cached, state := { st with emailCache := g.2 },
        emailWrites := [] }
    | none =>
      verifyEmailBody env now email opts { st with emailCache := g.2 } (some ne)
  | none => verifyEmailBody env now email opts st none

/-- The z-score a result carries (`catchAllSignals.zScore ?? 0`, with 0
when no signals record is present). -/
def resultZScore (r : VerificationResult) : ℚ :=
  (match r.details.catchAllSignals with
   | some s => s.zScore
   | none => none).getD 0

/-- The claimed `isSafeToSend` equation (claim C2). -/
def SafeSendEq (r : VerificationResult) : Prop :=
  r.isSafeToSend =
    (r.checks.isValidSyntax && r.checks.isValidDomain &&
      r.checks.isDeliverable && !r.checks.isDisposableEmail &&
      !r.checks.isRoleBasedAccount &&
      (!r.checks.isCatchAllDomain || decide (2 < resultZScore r)))

/-- The claimed confidence invariant (claim C3). -/
def ConfidenceInv (r : VerificationResult) : Prop :=
  0 ≤ r.confidence ∧ r.confidence ≤ 1 ∧ (r.valid = false → r.confidence = 0)

/-- Modelled from the spec: the claimed z-score
`|realAvg − fakeAvg| / max(0.3 · fakeAvg, 30)`, 0 when either average is
0 (claim C1 reference formula). -/
def specZScore (realAvg fakeAvg : ℚ) : ℚ :=
  if realAvg = 0 ∨ fakeAvg = 0 then 0
  else |realAvg - fakeAvg| / max (0.3 * fakeAvg) 30

/-- Modelled from the spec: the claimed z-score confidence band
0.85 / 0.75 / 0.65 / 0.50 (claim C1 reference formula). -/
def specZBand (z : ℚ) : ℚ :=
  if 5 < z then 0.85 else if 3 < z then 0.75 else if 2 < z then 0.65 else 0.5

/-- The pattern penalty of a local part. -/
def patternPenaltyOf (localPart : String) : ℚ :=
  (getPatternPenalty (analyzeEmailPattern localPart).score
    (analyzeNameLikeness localPart)).1

/-- Modelled from the spec: the claimed catch-all confidence assembly —
z-score band plus pattern penalty, clamped to `[0, 0.85]`; a formula in
the two probe averages and the local part only, so SPF/DMARC and the MX
count cannot change it (claim C1 reference formula). -/
def specCatchAllConfidence (realAvg fakeAvg : ℚ) (localPart : String) : ℚ :=
  max 0 (min (specZBand (specZScore realAvg fakeAvg) + patternPenaltyOf localPart) 0.85)

/-- An example MX record for concrete instantiations. -/
def exMx : MxRecord := { exchange := "mx.example.com", priority := 10 }

/-- An example DNS result with one MX record. -/
def exDnsResult : DnsResult := { mxRecords := [exMx], hasValidDns := true }

/-- An example probe-stats record with the given status and average
RCPT-TO time. -/
def exProbe (s : SmtpStatus) (avg : ℚ) : ProbeStats :=
  { result :=
      { status := s, responseCode := none, responseMessage := none,
        responseTime := none, timing := none },
    timings := [], avgRcptToTime := avg, minRcptToTime := avg,
    maxRcptToTime := avg, events := [] }

/-- An example environment: valid DNS, both probes accepted (catch-all),
real average 100 ms, fake average 500 ms. -/
def exEnvCatchAll : VerifyEnv :=
  { dnsAnswer := exDnsResult, realStats := exProbe .accepted 100,
    fakeStats := exProbe .accepted 500, hasSPF := false, hasDMARC := false }

/-- The empty verification state. -/
def emptyState : VerifyState :=
  { emailCache := ⟨[]⟩, dnsCache := ⟨[]⟩, throttle := [] }

/-- Default options with the SMTP probe disabled. -/
def exOptsNoSmtp : VerifyOptions := { DEFAULT_OPTIONS with smtpCheck := false }

/-- An example environment whose probes both fail with `unknown`. -/
def exEnvUnknown : VerifyEnv :=
  { dnsAnswer := exDnsResult, realStats := exProbe .unknown 0,
    fakeStats := exProbe .unknown 0, hasSPF := false, hasDMARC := false }

/-- C6: `checkDns` returns the MX records sorted ascending by priority
when at least one exists, synthesizes the implicit-MX record from an A
answer otherwise, returns the empty invalid result when both are empty,
reports `hasValidDns` exactly when a record is present, and maps
resolver errors (`none` answers) to the same outcome as empty answers
instead of raising. -/
theorem checkDns_spec (domain : String) (mxAns : Option (List MxRecord))
    (aAns : Option (List String)) (rs : List MxRecord) :
    (mxAns = some rs → rs ≠ [] →
      (checkDns domain mxAns aAns).mxRecords.Perm rs ∧
      List.Pairwise (fun a b => a.priority ≤ b.priority)
        (checkDns domain mxAns aAns).mxRecords ∧
      (checkDns domain mxAns aAns).hasValidDns = true) ∧
    (lookupMx mxAns = [] → lookupA aAns ≠ [] →
      checkDns domain mxAns aAns =
        { mxRecords := [{ exchange := domain, priority := 0 }],
          hasValidDns := true }) ∧
    (lookupMx mxAns = [] → lookupA aAns = [] →
      checkDns domain mxAns aAns = { mxRecords := [], hasValidDns := false }) ∧
    ((checkDns domain mxAns aAns).hasValidDns = true ↔
      (checkDns domain mxAns aAns).mxRecords ≠ []) ∧
    checkDns domain none aAns = checkDns domain (some []) aAns ∧
    checkDns domain mxAns none = checkDns domain mxAns (some []) := by
  have hmerge : ∀ l : List MxRecord,
      List.Pairwise (fun a b : MxRecord => a.priority ≤ b.priority)
        (l.mergeSort (fun a b => decide (a.priority ≤ b.priority))) := by
    intro l
    have := @List.sorted_mergeSort MxRecord
      (fun a b : MxRecord => decide (a.priority ≤ b.priority))
      (fun a b c hab hbc => by
        simp only [decide_eq_true_eq] at *; exact le_trans hab hbc)
      (fun a b => by
        simp only [Bool.or_eq_true, decide_eq_true_eq]; exact le_total _ _)
      l
    exact this.imp (by simp only [decide_eq_true_eq]; exact fun h => h)
  refine ⟨?_, ?_, ?_, ?_, ?_, ?_⟩
  · rintro rfl hne
    have hlen : rs.length ≠ 0 := by simpa using hne
    have hmx : lookupMx (some rs) =
        rs.mergeSort (fun a b => decide (a.priority ≤ b.priority)) := by
      simp [lookupMx, hlen]
    have hperm := List.mergeSort_perm rs
      (fun a b => decide (a.priority ≤ b.priority))
    have hpos : 0 < (lookupMx (some rs)).length := by
      rw [hmx, hperm.length_eq]
      exact Nat.pos_of_ne_zero hlen
    have hck : checkDns domain (some rs) aAns =
        { mxRecords := lookupMx (some rs), hasValidDns := true } := by
      rw [checkDns.eq_def]
      simp [hpos]
    rw [hck, hmx]
    exact ⟨hperm, hmerge rs, rfl⟩
  · intro hmx ha
    have hlen : (lookupA aAns).length ≠ 0 := by simpa using ha
    rw [checkDns.eq_def]
    simp [hmx, Nat.pos_of_ne_zero hlen]
  · intro hmx ha
    rw [checkDns.eq_def]
    simp [hmx, ha]
  · rw [checkDns.eq_def]
    dsimp only
    split
    · next h =>
      simp only [ne_eq, true_iff]
      intro hnil
      rw [hnil] at h
      simp at h
    · split <;> simp
  · simp [checkDns, lookupMx]
  · simp [checkDns, lookupA]

/-- Witness for C6 at a concrete unsorted MX answer. -/
theorem checkDns_spec_witness :
    (checkDns "example.com"
        (some [{ exchange := "b", priority := 20 },
               { exchange := "a", priority := 10 }]) none).mxRecords.Perm
      [{ exchange := "b", priority := 20 },
       { exchange := "a", priority := 10 }] ∧
    (checkDns "example.com" (some []) (some ["93.184.216.34"])) =
      { mxRecords := [{ exchange := "example.com", priority := 0 }],
        hasValidDns := true } := by
  constructor
  · exact ((checkDns_spec "example.com"
      (some [{ exchange := "b", priority := 20 },
             { exchange := "a", priority := 10 }]) none
      [{ exchange := "b", priority := 20 },
       { exchange := "a", priority := 10 }]).1 rfl (by decide)).1
  · exact (checkDns_spec "example.com" (some []) (some ["93.184.216.34"])
      []).2.1 (by decide) (by decide)

/-- C7: `recordFailure` increments the failure count by one, assigns
`backoffUntil = now + min(initialBackoff · multiplier^(count − threshold),
maxBackoff)` exactly when the new count reaches the threshold, and the
assigned duration is monotone in the count and bounded by `maxBackoff`
(for a configuration with `multiplier ≥ 1` and `initialBackoff ≥ 0`, as
the defaults are). -/
theorem recordFailure_spec (cfg : ThrottleConfig) (now : ℚ)
    (st : ThrottleState) (n m : ℕ) (hmul : 1 ≤ cfg.backoffMultiplier)
    (hinit : 0 ≤ cfg.initialBackoff) (hnm : n ≤ m) :
    (recordFailureState cfg now st).failureCount = st.failureCount + 1 ∧
    (cfg.failureThreshold ≤ st.failureCount + 1 →
      (recordFailureState cfg now st).backoffUntil =
        now + backoffDuration cfg (st.failureCount + 1)) ∧
    (st.failureCount + 1 < cfg.failureThreshold →
      (recordFailureState cfg now st).backoffUntil = st.backoffUntil) ∧
    backoffDuration cfg n ≤ backoffDuration cfg m ∧
    backoffDuration cfg m ≤ cfg.maxBackoff := by
  refine ⟨?_, ?_, ?_, ?_, min_le_right _ _⟩
  · unfold recordFailureState
    dsimp only
    split <;> rfl
  · intro h
    unfold recordFailureState
    simp [h]
  · intro h
    unfold recordFailureState
    simp [Nat.not_le.mpr h]
  · unfold backoffDuration
    refine min_le_min ?_ le_rfl
    refine mul_le_mul_of_nonneg_left ?_ hinit
    exact pow_le_pow_right₀ hmul (Nat.sub_le_sub_right hnm _)

/-- Witness for C7 at the default configuration: the third consecutive
failure reaches the threshold and assigns the 5000 ms initial backoff. -/
theorem recordFailure_spec_witness :
    (recordFailureState DEFAULT_CONFIG 0
        { tokens := 10, lastRefill := 0, failureCount := 2,
          backoffUntil := 0 }).failureCount = 3 ∧
    (recordFailureState DEFAULT_CONFIG 0
        { tokens := 10, lastRefill := 0, failureCount := 2,
          backoffUntil := 0 }).backoffUntil =
      0 + backoffDuration DEFAULT_CONFIG 3 ∧
    backoffDuration DEFAULT_CONFIG 3 ≤ backoffDuration DEFAULT_CONFIG 5 ∧
    backoffDuration DEFAULT_CONFIG 5 ≤ DEFAULT_CONFIG.maxBackoff := by
  have h := recordFailure_spec DEFAULT_CONFIG 0
    { tokens := 10, lastRefill := 0, failureCount := 2, backoffUntil := 0 }
    3 5 (by norm_num [DEFAULT_CONFIG]) (by norm_num [DEFAULT_CONFIG])
    (by norm_num)
  exact ⟨h.1, h.2.1 (by norm_num [DEFAULT_CONFIG]), h.2.2.2.1, h.2.2.2.2⟩

/-- The running-result component of the `probeWithTimingStats` loop as a
standalone fold (for characterization). -/
def resFold (o : Option SmtpResultWithTiming)
    (l : List SmtpResultWithTiming) : Option SmtpResultWithTiming :=
  l.foldl
    (fun f r =>
      match f with
      | none => some r
      | some f0 => if r.status ≠ .unknown then some r else some f0)
    o

/-- Interspersing a separator before a final element flattens to pairs. -/
theorem intersperse_append_single (s : α) (l : List α) (a : α) :
    List.intersperse s (l ++ [a]) = l.flatMap (fun x => [x, s]) ++ [a] := by
  induction l with
  | nil => simp
  | cons x t ih =>
    cases t with
    | nil => simp [List.intersperse_cons_cons]
    | cons y t' =>
      simp only [List.cons_append, List.intersperse_cons_cons] at *
      simp [ih]

/-- The loop schedule of `probeWithTimingStats` is the probe sequence
with a 100 ms sleep between each two consecutive probes. -/
theorem probeSchedule_eq (n : ℕ) :
    probeSchedule n =
      List.intersperse (ProbeEvent.sleep 100)
        ((List.range n).map ProbeEvent.probe) := by
  cases n with
  | zero => rfl
  | succ k =>
    unfold probeSchedule
    rw [List.range_succ, List.flatMap_append, List.map_append]
    simp only [List.map_cons, List.map_nil]
    rw [intersperse_append_single]
    simp only [List.flatMap_cons, List.flatMap_nil, List.flatMap_map]
    have hcong :
        (List.range k).flatMap
            (fun i => ProbeEvent.probe i ::
              if i + 1 < k + 1 then [ProbeEvent.sleep 100] else []) =
          (List.range k).flatMap
            (fun i => [ProbeEvent.probe i, ProbeEvent.sleep 100]) := by
      refine List.flatMap_congr ?_
      intro i hi
      have : i < k := List.mem_range.mp hi
      simp [Nat.succ_lt_succ this]
    rw [hcong]
    simp

/-- `probeFold` splits into the collected timings and the running
result. -/
theorem probeFold_eq (l : List SmtpResultWithTiming) :
    probeFold l = (l.filterMap (fun r => r.timing), resFold none l) := by
  suffices h : ∀ (l : List SmtpResultWithTiming) (acc : List SmtpTiming)
      (o : Option SmtpResultWithTiming),
      List.foldl
        (fun acc r =>
          (acc.1 ++ (match r.timing with | some t => [t] | none => []),
           match acc.2 with
           | none => some r
           | some f => if r.status ≠ .unknown then some r else some f))
        (acc, o) l =
        (acc ++ l.filterMap (fun r => r.timing), resFold o l) by
    have := h l [] none
    simpa [probeFold] using this
  intro l
  induction l with
  | nil => intro acc o; simp [resFold]
  | cons r t ih =>
    intro acc o
    rw [List.foldl_cons, ih]
    cases hrt : r.timing with
    | none => simp [hrt, resFold]
    | some tm => simp [hrt, resFold]

/-- The running result seeded with a value: the last status that is not
`unknown` wins, else the seed survives. -/
theorem resFold_some (l : List SmtpResultWithTiming)
    (f : SmtpResultWithTiming) :
    resFold (some f) l =
      some ((l.reverse.find?
        (fun r => decide (r.status ≠ SmtpStatus.unknown))).getD f) := by
  induction l generalizing f with
  | nil => simp [resFold]
  | cons r t ih =>
    have h1 : resFold (some f) (r :: t) =
        resFold (some (if r.status ≠ SmtpStatus.unknown then r else f)) t := by
      simp only [resFold, List.foldl_cons]
      congr 1
      split <;> rfl
    rw [h1, ih]
    rw [List.reverse_cons, List.find?_append]
    cases hf : t.reverse.find? (fun r => decide (r.status ≠ SmtpStatus.unknown)) with
    | some x => simp [hf, Option.orElse]
    | none =>
      simp only [hf, Option.none_orElse, List.find?_cons, List.find?_nil]
      split <;> rename_i hd <;> simp_all

/-- C5 counterexample: with two probes both `unknown` (and distinct),
the reported result is the FIRST unknown outcome, not the final one, and
the `probeCount` default is 3, not 2. -/
theorem probeWithTimingStats_claim_counterexample :
    defaultProbeCount ≠ 2 ∧
    (probeWithTimingStats
        [{ status := .unknown, responseCode := some 1,
           responseMessage := none, responseTime := none, timing := none },
         { status := .unknown, responseCode := some 2,
           responseMessage := none, responseTime := none, timing := none }]).result =
      { status := .unknown, responseCode := some 1, responseMessage := none,
        responseTime := none, timing := none } ∧
    ({ status := .unknown, responseCode := some 1, responseMessage := none,
       responseTime := none, timing := none } : SmtpResultWithTiming) ≠
      { status := .unknown, responseCode := some 2, responseMessage := none,
        responseTime := none, timing := none } := by
  refine ⟨by decide, ?_, by decide⟩
  rfl

/-- C5 (amended): `probeWithTimingStats` runs its probes sequentially
with a 100 ms pause between consecutive probes; average, minimum and
maximum are taken over the recorded `rcptTo` times that are strictly
positive (0 when none exists); the reported result is the last probe
result whose status is not `unknown` if any exists, otherwise the FIRST
result (the synthetic no-probes result when no probe ran); and the
`probeCount` parameter defaults to 3 (the orchestrator passes
`TIMING_PROBE_COUNT = 2` explicitly). -/
theorem probeWithTimingStats_spec (probeResults : List SmtpResultWithTiming) :
    (probeWithTimingStats probeResults).events =
      List.intersperse (ProbeEvent.sleep 100)
        ((List.range probeResults.length).map ProbeEvent.probe) ∧
    (probeWithTimingStats probeResults).timings =
      probeResults.filterMap (fun r => r.timing) ∧
    (probeWithTimingStats probeResults).avgRcptToTime =
      (let rts := ((probeResults.filterMap (fun r => r.timing)).map
          (fun t => t.rcptTo)).filter (fun t => decide (0 < t))
        if rts = [] then 0 else rts.sum / rts.length) ∧
    (probeWithTimingStats probeResults).minRcptToTime =
      (let rts := ((probeResults.filterMap (fun r => r.timing)).map
          (fun t => t.rcptTo)).filter (fun t => decide (0 < t))
        if rts = [] then 0 else listMin rts) ∧
    (probeWithTimingStats probeResults).maxRcptToTime =
      (let rts := ((probeResults.filterMap (fun r => r.timing)).map
          (fun t => t.rcptTo)).filter (fun t => decide (0 < t))
        if rts = [] then 0 else listMax rts) ∧
    (probeWithTimingStats probeResults).result =
      (probeResults.reverse.find?
        (fun r => decide (r.status ≠ SmtpStatus.unknown))).getD
        (probeResults.headD noProbesResult) ∧
    defaultProbeCount = 3 := by
  have hfold := probeFold_eq probeResults
  have hlen : ∀ (l : List ℚ), (0 < l.length) ↔ ¬(l = []) := by
    intro l; cases l <;> simp
  unfold probeWithTimingStats
  rw [hfold]
  refine ⟨probeSchedule_eq _, rfl, ?_, ?_, ?_, ?_, rfl⟩
  · dsimp only
    by_cases h : ((probeResults.filterMap (fun r => r.timing)).map
        (fun t => t.rcptTo)).filter (fun t => decide (0 < t)) = [] <;>
      simp [h, hlen]
  · dsimp only
    by_cases h : ((probeResults.filterMap (fun r => r.timing)).map
        (fun t => t.rcptTo)).filter (fun t => decide (0 < t)) = [] <;>
      simp [h, hlen]
  · dsimp only
    by_cases h : ((probeResults.filterMap (fun r => r.timing)).map
        (fun t => t.rcptTo)).filter (fun t => decide (0 < t)) = [] <;>
      simp [h, hlen]
  · dsimp only
    cases probeResults with
    | nil => simp [resFold]
    | cons r t =>
      have h1 : resFold none (r :: t) = resFold (some r) t := rfl
      rw [h1, resFold_some]
      rw [List.reverse_cons, List.find?_append]
      cases hf : t.reverse.find?
          (fun r => decide (r.status ≠ SmtpStatus.unknown)) with
      | some x => simp [hf, Option.orElse]
      | none =>
        simp only [hf, Option.none_orElse, List.find?_cons, List.find?_nil]
        split <;> simp_all

/-- A list of lower-alpha characters contains no separator character. -/
theorem not_mem_of_allLower {l : List Char} {c : Char}
    (h : allLower l = true) (hc : ('a' ≤ c ∧ c ≤ 'z') → False) : c ∉ l := by
  intro hmem
  unfold allLower at h
  rw [List.all_eq_true] at h
  have := h c hmem
  simp only [Bool.and_eq_true, decide_eq_true_eq] at this
  exact hc this

/-- A `first.m.last` match forces a dot in the string. -/
theorem dot_mem_of_reFirstMLast {l : List Char}
    (h : reFirstMLast l = true) : '.' ∈ l := by
  unfold reFirstMLast at h
  split at h
  · next a m b heq =>
    by_contra hdot
    have hsingle : l.splitOn '.' = [l] := by
      simp only [List.splitOn]
      refine List.splitOnP_eq_single _ _ ?_
      intro x hx
      simp only [beq_iff_eq]
      rintro rfl
      exact hdot hx
    rw [hsingle] at heq
    simp at heq
  · simp at h

/-- Every character of a `first_last` match is an underscore or
lower-alpha. -/
theorem chars_of_reFirstUnderLast {l : List Char}
    (h : reFirstUnderLast l = true) :
    ∀ c ∈ l, c = '_' ∨ ('a' ≤ c ∧ c ≤ 'z') := by
  unfold reFirstUnderLast at h
  split at h
  · next a b heq =>
    simp only [Bool.and_eq_true, ne_eq] at h
    obtain ⟨⟨⟨ha, hala⟩, hb⟩, halb⟩ := h
    have hrec : l = a ++ '_' :: b := by
      have hi := List.intercalate_splitOn l '_'
      rw [heq] at hi
      simpa [List.intercalate] using hi.symm
    intro c hc
    rw [hrec] at hc
    rcases List.mem_append.mp hc with hc | hc
    · right
      unfold allLower at hala
      rw [List.all_eq_true] at hala
      simpa using hala c hc
    · rcases List.mem_cons.mp hc with rfl | hc
      · left; rfl
      · right
        unfold allLower at halb
        rw [List.all_eq_true] at halb
        simpa using halb c hc
  · simp at h

/-- Every character of a `first-last` match is a hyphen or lower-alpha. -/
theorem chars_of_reFirstDashLast {l : List Char}
    (h : reFirstDashLast l = true) :
    ∀ c ∈ l, c = '-' ∨ ('a' ≤ c ∧ c ≤ 'z') := by
  unfold reFirstDashLast at h
  split at h
  · next a b heq =>
    simp only [Bool.and_eq_true, ne_eq] at h
    obtain ⟨⟨⟨ha, hala⟩, hb⟩, halb⟩ := h
    have hrec : l = a ++ '-' :: b := by
      have hi := List.intercalate_splitOn l '-'
      rw [heq] at hi
      simpa [List.intercalate] using hi.symm
    intro c hc
    rw [hrec] at hc
    rcases List.mem_append.mp hc with hc | hc
    · right
      unfold allLower at hala
      rw [List.all_eq_true] at hala
      simpa using hala c hc
    · rcases List.mem_cons.mp hc with rfl | hc
      · left; rfl
      · right
        unfold allLower at halb
        rw [List.all_eq_true] at halb
        simpa using halb c hc
  · simp at h

/-- An all-lower string matches none of the dotted patterns. -/
theorem reFirstMLast_false_of_allLower {l : List Char}
    (h : allLower l = true) : reFirstMLast l = false := by
  by_contra hb
  rw [Bool.not_eq_false] at hb
  exact not_mem_of_allLower h (by decide) (dot_mem_of_reFirstMLast hb)

/-- An all-lower string has no underscore, so no `first_last` match. -/
theorem reFirstUnderLast_false_of_allLower {l : List Char}
    (h : allLower l = true) : reFirstUnderLast l = false := by
  by_contra hb
  rw [Bool.not_eq_false] at hb
  unfold reFirstUnderLast at hb
  split at hb
  · next a b heq =>
    have hu : '_' ∉ l := not_mem_of_allLower h (by decide)
    have hsingle : l.splitOn '_' = [l] := by
      simp only [List.splitOn]
      refine List.splitOnP_eq_single _ _ ?_
      intro x hx
      simp only [beq_iff_eq]
      rintro rfl
      exact hu hx
    rw [hsingle] at heq
    simp at heq
  · simp at hb

/-- An all-lower string has no hyphen, so no `first-last` match. -/
theorem reFirstDashLast_false_of_allLower {l : List Char}
    (h : allLower l = true) : reFirstDashLast l = false := by
  by_contra hb
  rw [Bool.not_eq_false] at hb
  unfold reFirstDashLast at hb
  split at hb
  · next a b heq =>
    have hu : '-' ∉ l := not_mem_of_allLower h (by decide)
    have hsingle : l.splitOn '-' = [l] := by
      simp only [List.splitOn]
      refine List.splitOnP_eq_single _ _ ?_
      intro x hx
      simp only [beq_iff_eq]
      rintro rfl
      exact hu hx
    rw [hsingle] at heq
    simp at heq
  · simp at hb

/-- An all-lower string has no dot, so no `first.last` match. -/
theorem reFirstDotLast_false_of_allLower {l : List Char}
    (h : allLower l = true) : reFirstDotLast l = false := by
  by_contra hb
  rw [Bool.not_eq_false] at hb
  unfold reFirstDotLast at hb
  split at hb
  · next a b heq =>
    have hu : '.' ∉ l := not_mem_of_allLower h (by decide)
    have hsingle : l.splitOn '.' = [l] := by
      simp only [List.splitOn]
      refine List.splitOnP_eq_single _ _ ?_
      intro x hx
      simp only [beq_iff_eq]
      rintro rfl
      exact hu hx
    rw [hsingle] at heq
    simp at heq
  · simp at hb

/-- A `first_last` match contains no dot, so no `first.m.last` match. -/
theorem reFirstMLast_false_of_under {l : List Char}
    (h : reFirstUnderLast l = true) : reFirstMLast l = false := by
  by_contra hb
  rw [Bool.not_eq_false] at hb
  have hdot := dot_mem_of_reFirstMLast hb
  rcases chars_of_reFirstUnderLast h '.' hdot with hc | hc
  · exact absurd hc (by decide)
  · exact absurd hc (by decide)

/-- A `first-last` match contains no dot, so no `first.m.last` match. -/
theorem reFirstMLast_false_of_dash {l : List Char}
    (h : reFirstDashLast l = true) : reFirstMLast l = false := by
  by_contra hb
  rw [Bool.not_eq_false] at hb
  have hdot := dot_mem_of_reFirstMLast hb
  rcases chars_of_reFirstDashLast h '.' hdot with hc | hc
  · exact absurd hc (by decide)
  · exact absurd hc (by decide)

/-- C8: the source pattern analyzer equals the analyzer over the spec's
ordered table (first match wins in both; the two orders agree because
the swapped regexes have disjoint languages), including the shared
fallback and the 0 score on empty input. -/
theorem analyzeEmailPattern_follows_spec (localPart : String) :
    analyzeEmailPattern localPart = specAnalyzeEmailPattern localPart := by
  unfold analyzeEmailPattern specAnalyzeEmailPattern
  by_cases hemp : localPart = ""
  · simp [hemp]
  · simp only [hemp, if_false]
    simp only [EMAIL_PATTERNS, SPEC_EMAIL_PATTERNS, List.findSome?_cons,
      List.findSome?_nil]
    set L := (jsToLower localPart).toList with hL
    by_cases h1 : reFirstDotLast L
    · simp [h1]
    · by_cases h2 : reFirstlast L
      · have hall : allLower L = true := by
          unfold reFirstlast at h2
          exact (Bool.and_eq_true _ _ |>.mp h2).1
        simp [h1, h2, reFirstMLast_false_of_allLower hall,
          reFirstUnderLast_false_of_allLower hall,
          reFirstDashLast_false_of_allLower hall]
      · by_cases h3 : reFirstUnderLast L
        · simp [h1, h2, h3, reFirstMLast_false_of_under h3]
        · by_cases h4 : reFlast L
          · have hall : allLower L = true := by
              unfold reFlast at h4
              exact (Bool.and_eq_true _ _ |>.mp h4).1
            simp [h1, h2, h3, h4, reFirstMLast_false_of_allLower hall,
              reFirstDashLast_false_of_allLower hall]
          · by_cases h5 : reFirstMLast L
            · simp [h1, h2, h3, h4, h5]
            · by_cases h6 : reFirstDashLast L
              · simp [h1, h2, h3, h4, h5, h6]
              · by_cases h7 : reFirstl L
                · simp [h1, h2, h3, h4, h5, h6, h7]
                · simp [h1, h2, h3, h4, h5, h6, h7]

/-- A found binding belongs to the association list. -/
theorem assocFind?_mem {l : List (String × β)} {key : String} {v : β}
    (h : assocFind? key l = some v) : (key, v) ∈ l := by
  induction l with
  | nil => simp [assocFind?] at h
  | cons p t ih =>
    rw [assocFind?] at h
    split at h
    · next heq =>
      obtain ⟨k, w⟩ := p
      simp only [Option.some.injEq] at h
      simp only at heq
      subst heq
      subst h
      exact List.mem_cons_self _ _
    · exact List.mem_cons_of_mem _ (ih h)

/-- A cache hit returns the value of a stored entry. -/
theorem cacheGet_fst_mem {c : CacheStore α} {now : ℚ} {key : String} {v : α}
    (h : (cacheGet now key c).1 = some v) :
    ∃ e : CacheEntry α, (key, e) ∈ c.entries ∧ e.value = v := by
  unfold cacheGet at h
  cases hf : assocFind? key c.entries with
  | none => rw [hf] at h; simp at h
  | some e =>
    rw [hf] at h
    dsimp only at h
    split at h
    · simp at h
    · simp only [Option.some.injEq] at h
      exact ⟨e, assocFind?_mem hf, h⟩

/-- The pattern penalty is never positive. -/
theorem getPatternPenalty_nonpos (p n : ℚ) : (getPatternPenalty p n).1 ≤ 0 := by
  unfold getPatternPenalty
  split_ifs <;> norm_num

/-- The synthesized confidence lies in `[0, 1]`. -/
theorem synthesizeConfidence_bounds (smtpStatus : SmtpStatus)
    (catchAll : Option Bool) (zScoreOpt : Option ℚ)
    (patternScore nameScore : ℚ) :
    0 ≤ (synthesizeConfidence smtpStatus catchAll zScoreOpt patternScore
      nameScore).1 ∧
    (synthesizeConfidence smtpStatus catchAll zScoreOpt patternScore
      nameScore).1 ≤ 1 := by
  unfold synthesizeConfidence
  split
  · norm_num
  · split
    · dsimp only
      refine ⟨le_max_left _ _, ?_⟩
      exact max_le (by norm_num) (le_trans (min_le_right _ _) (by norm_num))
    · norm_num [CONFIDENCE_VERIFIED]

/-- The confidence invariant holds for every result built by
`verifyAfterSmtp`. -/
theorem afterSmtp_confInv (env : VerifyEnv) (now : ℚ) (email : String)
    (opts : VerifyOptions) (st : VerifyState)
    (normalizedEmail : Option String) (mxHosts : List String)
    (provider : Option MailProvider) (checks : VerificationChecks)
    (smtpStatus : SmtpStatus) (realAvg : ℚ) :
    ConfidenceInv (verifyAfterSmtp env now email opts st normalizedEmail
      mxHosts provider checks smtpStatus realAvg).result := by
  unfold verifyAfterSmtp
  split
  · dsimp only
    split <;>
      exact ⟨le_refl _, by norm_num [CONFIDENCE_INVALID], fun _ => rfl⟩
  · split
    · exact ⟨by norm_num [CONFIDENCE_SMTP_UNKNOWN],
        by norm_num [CONFIDENCE_SMTP_UNKNOWN], fun h => nomatch h⟩
    · dsimp only
      split <;>
        exact ⟨(synthesizeConfidence_bounds _ _ _ _ _).1,
          (synthesizeConfidence_bounds _ _ _ _ _).2, fun h => nomatch h⟩

/-- The confidence invariant holds for every result built by
`verifyEmailBody`. -/
theorem body_confInv (env : VerifyEnv) (now : ℚ) (email : String)
    (opts : VerifyOptions) (st : VerifyState)
    (normalizedEmail : Option String) :
    ConfidenceInv (verifyEmailBody env now email opts st normalizedEmail).result := by
  unfold verifyEmailBody
  split
  · exact ⟨le_refl _, by norm_num [CONFIDENCE_INVALID], fun _ => rfl⟩
  · split
    · exact ⟨le_refl _, by norm_num [CONFIDENCE_INVALID], fun _ => rfl⟩
    · dsimp only
      split
      · split <;>
          exact ⟨le_refl _, by norm_num [CONFIDENCE_INVALID], fun _ => rfl⟩
      · split
        · split
          · exact ⟨by norm_num [CONFIDENCE_SMTP_UNKNOWN],
              by norm_num [CONFIDENCE_SMTP_UNKNOWN], fun h => nomatch h⟩
          · exact afterSmtp_confInv ..
        · exact afterSmtp_confInv ..

/-- C3: every result `verifyEmail` returns has confidence in `[0, 1]`,
and an invalid result has confidence exactly 0 — provided every
already-cached result satisfies the same invariant (cached entries are
themselves earlier outputs). -/
theorem verifyEmail_confidenceInv (env : VerifyEnv) (now : ℚ)
    (email : String) (opts : VerifyOptions) (st : VerifyState)
    (hc : ∀ p ∈ st.emailCache.entries, ConfidenceInv p.2.value) :
    ConfidenceInv (verifyEmail env now email opts st).result := by
  unfold verifyEmail
  cases hne : normalizeEmail email with
  | none => exact body_confInv ..
  | some ne =>
    dsimp only
    cases hg : (cacheGet now (emailCacheKey ne) st.emailCache).1 with
    | none => exact body_confInv ..
    | some cached =>
      obtain ⟨e, hmem, hval⟩ := cacheGet_fst_mem hg
      simpa [hval] using hc (emailCacheKey ne, e) hmem

/-- Witness for C3: a fresh catch-all verification of
`john.doe@example.com`. -/
theorem verifyEmail_confidenceInv_witness :
    ConfidenceInv (verifyEmail exEnvCatchAll 0 "john.doe@example.com"
      DEFAULT_OPTIONS emptyState).result := by
  exact verifyEmail_confidenceInv exEnvCatchAll 0 "john.doe@example.com"
    DEFAULT_OPTIONS emptyState (by intro p hp; simp [emptyState] at hp)

/-- The `isSafeToSend` equation holds for every result built by
`verifyAfterSmtp`, given the two facts the orchestrator guarantees about
the checks it passes in. -/
theorem afterSmtp_safeEq (env : VerifyEnv) (now : ℚ) (email : String)
    (opts : VerifyOptions) (st : VerifyState)
    (normalizedEmail : Option String) (mxHosts : List String)
    (provider : Option MailProvider) (checks : VerificationChecks)
    (smtpStatus : SmtpStatus) (realAvg : ℚ)
    (hdel : checks.isDeliverable = decide (smtpStatus = SmtpStatus.accepted))
    (hcad : checks.isCatchAllDomain = false) :
    SafeSendEq (verifyAfterSmtp env now email opts st normalizedEmail
      mxHosts provider checks smtpStatus realAvg).result := by
  unfold verifyAfterSmtp SafeSendEq
  split
  · next hrej =>
    dsimp only
    split <;> (subst hrej; simp [resultZScore, hdel])
  · split
    · next hunk =>
      subst hunk
      simp [resultZScore, hdel]
    · dsimp only
      split
      · next ne =>
        dsimp only [resultZScore]
        split
        · simp
        · simp [hcad]
      · dsimp only [resultZScore]
        split
        · simp
        · simp [hcad]

/-- The `isSafeToSend` equation holds for every result built by
`verifyEmailBody`. -/
theorem body_safeEq (env : VerifyEnv) (now : ℚ) (email : String)
    (opts : VerifyOptions) (st : VerifyState)
    (normalizedEmail : Option String) :
    SafeSendEq (verifyEmailBody env now email opts st normalizedEmail).result := by
  unfold verifyEmailBody
  split
  · next hsyn =>
    simp only [Bool.not_eq_eq_eq_not, Bool.not_true] at hsyn
    unfold SafeSendEq
    simp [resultZScore, hsyn]
  · split
    · unfold SafeSendEq
      simp [resultZScore, createDefaultChecks]
    · dsimp only
      split
      · next hdns =>
        simp only [Bool.not_eq_eq_eq_not, Bool.not_true] at hdns
        unfold SafeSendEq
        split <;> simp [resultZScore, hdns]
      · split
        · split
          · unfold SafeSendEq
            simp [resultZScore, createDefaultChecks]
          · exact afterSmtp_safeEq env now email opts _ normalizedEmail _ _ _
              _ _ rfl rfl
        · refine afterSmtp_safeEq env now email opts _ normalizedEmail _ _ _
            _ _ ?_ rfl
          simp [createDefaultChecks]

/-- C2: every result `verifyEmail` returns satisfies
`isSafeToSend = isValidSyntax ∧ isValidDomain ∧ isDeliverable ∧
¬isDisposable ∧ ¬isRoleBased ∧ (¬isCatchAll ∨ zScore > 2)`, and in
particular `isSafeToSend = true` forces the first five conjuncts —
provided every already-cached result satisfies the same equation. -/
theorem verifyEmail_isSafeToSend (env : VerifyEnv) (now : ℚ)
    (email : String) (opts : VerifyOptions) (st : VerifyState)
    (hc : ∀ p ∈ st.emailCache.entries, SafeSendEq p.2.value) :
    SafeSendEq (verifyEmail env now email opts st).result ∧
    ((verifyEmail env now email opts st).result.isSafeToSend = true →
      (verifyEmail env now email opts st).result.checks.isValidSyntax = true ∧
      (verifyEmail env now email opts st).result.checks.isValidDomain = true ∧
      (verifyEmail env now email opts st).result.checks.isDeliverable = true ∧
      (verifyEmail env now email opts st).result.checks.isDisposableEmail = false ∧
      (verifyEmail env now email opts st).result.checks.isRoleBasedAccount = false) := by
  have hmain : SafeSendEq (verifyEmail env now email opts st).result := by
    unfold verifyEmail
    cases hne : normalizeEmail email with
    | none => exact body_safeEq ..
    | some ne =>
      dsimp only
      cases hg : (cacheGet now (emailCacheKey ne) st.emailCache).1 with
      | none => exact body_safeEq ..
      | some cached =>
        obtain ⟨e, hmem, hval⟩ := cacheGet_fst_mem hg
        simpa [hval] using hc (emailCacheKey ne, e) hmem
  refine ⟨hmain, ?_⟩
  intro ht
  unfold SafeSendEq at hmain
  rw [ht] at hmain
  have := hmain.symm
  simp only [Bool.and_eq_true, Bool.not_eq_eq_eq_not, Bool.not_true,
    Bool.or_eq_true] at this
  exact ⟨this.1.1.1.1.1, this.1.1.1.1.2, this.1.1.1.2,
    this.1.1.2, this.1.2⟩

/-- Witness for C2: a fresh non-catch-all verification of
`john.doe@example.com` (real probe accepted, fake probe rejected). -/
theorem verifyEmail_isSafeToSend_witness :
    SafeSendEq (verifyEmail
      { dnsAnswer := exDnsResult, realStats := exProbe .accepted 100,
        fakeStats := exProbe .rejected 120, hasSPF := false,
        hasDMARC := false } 0 "john.doe@example.com" DEFAULT_OPTIONS
      emptyState).result := by
  exact (verifyEmail_isSafeToSend
    { dnsAnswer := exDnsResult, realStats := exProbe .accepted 100,
      fakeStats := exProbe .rejected 120, hasSPF := false,
      hasDMARC := false } 0 "john.doe@example.com" DEFAULT_OPTIONS
    emptyState (by intro p hp; simp [emptyState] at hp)).1

/-- C9: when syntax validation fails (and the cache does not hit), the
result still reports the disposable / role-based / free-provider
detections computed from the raw input, with `valid = false`,
`confidence = 0` and `smtpStatus = skipped`. -/
theorem invalidSyntax_detections (env : VerifyEnv) (now : ℚ)
    (email : String) (opts : VerifyOptions) (st : VerifyState)
    (hsyn : isValidFormat email = false)
    (hmiss : ∀ ne, normalizeEmail email = some ne →
      (cacheGet now (emailCacheKey ne) st.emailCache).1 = none) :
    (verifyEmail env now email opts st).result.checks.isDisposableEmail =
      isDisposableEmail email ∧
    (verifyEmail env now email opts st).result.checks.isRoleBasedAccount =
      isRoleBasedEmail email ∧
    (verifyEmail env now email opts st).result.checks.isFreeEmailProvider =
      isFreeEmail email ∧
    (verifyEmail env now email opts st).result.valid = false ∧
    (verifyEmail env now email opts st).result.confidence = 0 ∧
    (verifyEmail env now email opts st).result.details.smtpStatus =
      SmtpStatus.skipped := by
  have hbody : ∀ st' ne',
      verifyEmailBody env now email opts st' ne' =
        { result :=
            { email := email, valid := false,
              confidence := CONFIDENCE_INVALID, isSafeToSend := false,
              checks :=
                { createDefaultChecks with
                  isDisposableEmail := isDisposableEmail email,
                  isRoleBasedAccount := isRoleBasedEmail email,
                  isFreeEmailProvider := isFreeEmail email,
                  isValidSyntax := isValidFormat email },
              details :=
                { formatValid := false, mxRecords := [],
                  smtpStatus := .skipped, catchAll := none, provider := none,
                  catchAllSignals := none,
                  confidenceReasons := [.invalidEmailFormat] } },
          state := st', emailWrites := [] } := by
    intro st' ne'
    unfold verifyEmailBody
    rw [if_pos]
    simp [hsyn]
  unfold verifyEmail
  cases hne : normalizeEmail email with
  | none =>
    rw [hbody]
    exact ⟨rfl, rfl, rfl, rfl, rfl, rfl⟩
  | some ne =>
    dsimp only
    rw [hmiss ne hne]
    dsimp only
    rw [hbody]
    exact ⟨rfl, rfl, rfl, rfl, rfl, rfl⟩

/-- Witness for C9: `info@@mailinator.com` is syntactically invalid yet
still flagged as disposable. -/
theorem invalidSyntax_detections_witness :
    isValidFormat "info@@mailinator.com" = false ∧
    isDisposableEmail "info@@mailinator.com" = true ∧
    (verifyEmail exEnvCatchAll 0 "info@@mailinator.com" DEFAULT_OPTIONS
      emptyState).result.checks.isDisposableEmail = true ∧
    (verifyEmail exEnvCatchAll 0 "info@@mailinator.com" DEFAULT_OPTIONS
      emptyState).result.valid = false ∧
    (verifyEmail exEnvCatchAll 0 "info@@mailinator.com" DEFAULT_OPTIONS
      emptyState).result.confidence = 0 ∧
    (verifyEmail exEnvCatchAll 0 "info@@mailinator.com" DEFAULT_OPTIONS
      emptyState).result.details.smtpStatus = SmtpStatus.skipped := by
  have h := invalidSyntax_detections exEnvCatchAll 0 "info@@mailinator.com"
    DEFAULT_OPTIONS emptyState (by decide)
    (by intro ne hne; simp [emptyState, cacheGet, assocFind?])
  refine ⟨by decide, by decide, ?_, h.2.2.2.1, h.2.2.2.2.1, h.2.2.2.2.2⟩
  rw [h.1]
  decide

/-- `verifyAfterSmtp` writes no cache entry on the `unknown` path, only
writes results whose syntax check passed, and only writes on statuses
`accepted`, `rejected` or `skipped`. -/
theorem afterSmtp_writes (env : VerifyEnv) (now : ℚ) (email : String)
    (opts : VerifyOptions) (st : VerifyState)
    (normalizedEmail : Option String) (mxHosts : List String)
    (provider : Option MailProvider) (checks : VerificationChecks)
    (smtpStatus : SmtpStatus) (realAvg : ℚ)
    (hsynOK : checks.isValidSyntax = true) :
    ((verifyAfterSmtp env now email opts st normalizedEmail mxHosts provider
        checks smtpStatus realAvg).result.details.smtpStatus =
        SmtpStatus.unknown →
      (verifyAfterSmtp env now email opts st normalizedEmail mxHosts provider
        checks smtpStatus realAvg).emailWrites = []) ∧
    ((verifyAfterSmtp env now email opts st normalizedEmail mxHosts provider
        checks smtpStatus realAvg).result.checks.isValidSyntax = false →
      (verifyAfterSmtp env now email opts st normalizedEmail mxHosts provider
        checks smtpStatus realAvg).emailWrites = []) ∧
    ((verifyAfterSmtp env now email opts st normalizedEmail mxHosts provider
        checks smtpStatus realAvg).emailWrites ≠ [] →
      (verifyAfterSmtp env now email opts st normalizedEmail mxHosts provider
        checks smtpStatus realAvg).result.details.smtpStatus =
        SmtpStatus.accepted ∨
      (verifyAfterSmtp env now email opts st normalizedEmail mxHosts provider
        checks smtpStatus realAvg).result.details.smtpStatus =
        SmtpStatus.rejected ∨
      (verifyAfterSmtp env now email opts st normalizedEmail mxHosts provider
        checks smtpStatus realAvg).result.details.smtpStatus =
        SmtpStatus.skipped) := by
  unfold verifyAfterSmtp
  split
  · next hrej =>
    subst hrej
    dsimp only
    split
    · refine ⟨(fun h => nomatch h), (fun h => ?_),
        (fun _ => Or.inr (Or.inl rfl))⟩
      dsimp only at h
      rw [hsynOK] at h
      exact nomatch h
    · exact ⟨fun _ => rfl, fun _ => rfl, fun h => absurd rfl h⟩
  · split
    · exact ⟨fun _ => rfl, fun _ => rfl, fun h => absurd rfl h⟩
    · next hrej hunk =>
      have hstatus : smtpStatus = SmtpStatus.accepted ∨
          smtpStatus = SmtpStatus.skipped := by
        cases smtpStatus <;> simp_all
      dsimp only
      split
      · refine ⟨fun h => ?_, fun h => ?_, fun _ => ?_⟩
        · dsimp only at h
          rcases hstatus with h' | h' <;> (rw [h'] at h; exact nomatch h)
        · dsimp only at h
          split at h <;>
            (dsimp only at h; rw [hsynOK] at h; exact nomatch h)
        · dsimp only
          rcases hstatus with h' | h'
          · exact Or.inl h'
          · exact Or.inr (Or.inr h')
      · exact ⟨fun _ => rfl, fun _ => rfl, fun h => absurd rfl h⟩

/-- C4 (amended): `verifyEmail` never stores a result whose
`smtpStatus` is `unknown` (neither the throttled short-circuit nor the
probe-returned-unknown path writes), never stores invalid-syntax
results, and every stored entry comes from a completion path whose
status is `accepted`, `rejected` or `skipped` (the latter covering both
the DNS-invalid result and the SMTP-check-skipped result). -/
theorem verifyEmail_cacheWrites (env : VerifyEnv) (now : ℚ) (email : String)
    (opts : VerifyOptions) (st : VerifyState) :
    ((verifyEmail env now email opts st).result.details.smtpStatus =
        SmtpStatus.unknown →
      (verifyEmail env now email opts st).emailWrites = []) ∧
    ((verifyEmail env now email opts st).result.checks.isValidSyntax = false →
      (verifyEmail env now email opts st).emailWrites = []) ∧
    ((verifyEmail env now email opts st).emailWrites ≠ [] →
      (verifyEmail env now email opts st).result.details.smtpStatus =
        SmtpStatus.accepted ∨
      (verifyEmail env now email opts st).result.details.smtpStatus =
        SmtpStatus.rejected ∨
      (verifyEmail env now email opts st).result.details.smtpStatus =
        SmtpStatus.skipped) := by
  have hbody : ∀ (st' : VerifyState) (ne' : Option String),
      ((verifyEmailBody env now email opts st' ne').result.details.smtpStatus =
          SmtpStatus.unknown →
        (verifyEmailBody env now email opts st' ne').emailWrites = []) ∧
      ((verifyEmailBody env now email opts st' ne').result.checks.isValidSyntax =
          false →
        (verifyEmailBody env now email opts st' ne').emailWrites = []) ∧
      ((verifyEmailBody env now email opts st' ne').emailWrites ≠ [] →
        (verifyEmailBody env now email opts st' ne').result.details.smtpStatus =
          SmtpStatus.accepted ∨
        (verifyEmailBody env now email opts st' ne').result.details.smtpStatus =
          SmtpStatus.rejected ∨
        (verifyEmailBody env now email opts st' ne').result.details.smtpStatus =
          SmtpStatus.skipped) := by
    intro st' ne'
    unfold verifyEmailBody
    split
    · exact ⟨(fun h => nomatch h), (fun _ => rfl), (fun h => absurd rfl h)⟩
    · next hsyn0 =>
      have hsyn : isValidFormat email = true := by
        simp only [Bool.not_eq_eq_eq_not, Bool.not_true] at hsyn0
        simpa using hsyn0
      split
      · exact ⟨(fun h => nomatch h), (fun _ => rfl), (fun h => absurd rfl h)⟩
      · dsimp only
        split
        · split
          · refine ⟨(fun h => nomatch h), (fun h => ?_),
              (fun _ => Or.inr (Or.inr rfl))⟩
            dsimp only at h
            rw [hsyn] at h
            exact nomatch h
          · exact ⟨(fun h => nomatch h), (fun _ => rfl), (fun h => absurd rfl h)⟩
        · split
          · split
            · exact ⟨fun _ => rfl, fun _ => rfl, fun h => absurd rfl h⟩
            · exact afterSmtp_writes env now email opts _ ne' _ _ _ _ _ hsyn
          · exact afterSmtp_writes env now email opts _ ne' _ _ _ _ _ hsyn
  unfold verifyEmail
  cases hne : normalizeEmail email with
  | none => exact hbody st none
  | some ne =>
    dsimp only
    cases hg : (cacheGet now (emailCacheKey ne) st.emailCache).1 with
    | none => exact hbody _ (some ne)
    | some cached =>
      exact ⟨fun _ => rfl, fun _ => rfl, fun h => absurd rfl h⟩

/-- C4 counterexample: with `smtpCheck` disabled, the SMTP-skipped
completion result IS cached (`emailWrites ≠ []`) although its path is
none of accepted / rejected / DNS-invalid (it is valid with a valid
domain and status `skipped`). -/
theorem verifyEmail_cacheWrites_counterexample :
    (verifyEmail exEnvCatchAll 0 "user@example.com" exOptsNoSmtp
      emptyState).emailWrites ≠ [] ∧
    (verifyEmail exEnvCatchAll 0 "user@example.com" exOptsNoSmtp
      emptyState).result.details.smtpStatus = SmtpStatus.skipped ∧
    (verifyEmail exEnvCatchAll 0 "user@example.com" exOptsNoSmtp
      emptyState).result.valid = true ∧
    (verifyEmail exEnvCatchAll 0 "user@example.com" exOptsNoSmtp
      emptyState).result.checks.isValidDomain = true := by
  refine ⟨?_, by with_unfolding_all decide, by with_unfolding_all decide,
    by with_unfolding_all decide⟩
  with_unfolding_all decide

/-- Witness for C4: a probe-unknown run writes nothing to the email
cache. -/
theorem verifyEmail_cacheWrites_witness :
    (verifyEmail exEnvUnknown 0 "user@example.com" DEFAULT_OPTIONS
      emptyState).emailWrites = [] ∧
    (verifyEmail exEnvUnknown 0 "user@example.com" DEFAULT_OPTIONS
      emptyState).result.details.smtpStatus = SmtpStatus.unknown := by
  refine ⟨?_, by with_unfolding_all decide⟩
  exact (verifyEmail_cacheWrites exEnvUnknown 0 "user@example.com"
    DEFAULT_OPTIONS emptyState).1 (by with_unfolding_all decide)

/-- The z-score the analyzer computes equals the spec formula
`|realAvg − fakeAvg| / max(0.3 · fakeAvg, 30)` (0 on zero averages): the
zero-deviation fallback of `calculateZScore` is dead because the
estimated deviation is at least 30. -/
theorem analyzeTiming_zScore_eq (r f : ℚ) :
    (analyzeTimingDifference r f).zScore = specZScore r f := by
  unfold analyzeTimingDifference specZScore calculateZScore
  by_cases h : r = 0 ∨ f = 0
  · simp [h]
  · rw [if_neg h, if_neg h]
    dsimp only
    have hsd : ¬(max (f * 0.3) 30 = (0:ℚ)) := by
      have h30 : (30:ℚ) ≤ max (f * 0.3) 30 := le_max_right _ _
      intro hz
      rw [hz] at h30
      norm_num at h30
    rw [if_neg hsd]
    have hcomm : f * 0.3 = 0.3 * f := mul_comm f 0.3
    split_ifs <;> simp [hcomm]

/-- On a catch-all with a present z-score, the synthesized confidence is
the z-score band plus the (always non-positive) pattern penalty, clamped
to `[0, 0.85]`. -/
theorem synthConf_catchall (st : SmtpStatus) (z p n : ℚ)
    (hst : ¬st = SmtpStatus.skipped) :
    (synthesizeConfidence st (some true) (some z) p n).1 =
      max 0 (min (specZBand z + (getPatternPenalty p n).1) 0.85) := by
  unfold synthesizeConfidence specZBand
  rw [if_neg hst, if_pos rfl]
  dsimp only
  simp only [Option.getD_some]
  by_cases hp : (getPatternPenalty p n).1 < 0
  · rw [if_pos hp]
    split_ifs <;> rfl
  · rw [if_neg hp]
    have h0 : (getPatternPenalty p n).1 = 0 :=
      le_antisymm (getPatternPenalty_nonpos p n) (not_lt.mp hp)
    rw [h0]
    split_ifs <;> rw [add_zero]

/-- On the accepted route with the catch-all probe also accepted,
`verifyAfterSmtp` reports `catchAll = some true` and assembles the
confidence from the z-score band and the pattern penalty alone. -/
theorem afterSmtp_catchall (env : VerifyEnv) (now : ℚ) (email : String)
    (opts : VerifyOptions) (st : VerifyState)
    (normalizedEmail : Option String) (mxHosts : List String)
    (provider : Option MailProvider) (checks : VerificationChecks)
    (realAvg : ℚ) (hcac : opts.catchAllCheck = true)
    (hmx : mxHosts.isEmpty = false)
    (hfake : env.fakeStats.result.status = SmtpStatus.accepted) :
    ((verifyAfterSmtp env now email opts st normalizedEmail mxHosts provider
        checks SmtpStatus.accepted realAvg).result.confidence =
      specCatchAllConfidence realAvg env.fakeStats.avgRcptToTime
        ((extractLocalPart email).getD "")) ∧
    ((verifyAfterSmtp env now email opts st normalizedEmail mxHosts provider
        checks SmtpStatus.accepted realAvg).result.details.catchAll =
      some true) := by
  unfold verifyAfterSmtp
  rw [if_neg (by decide : ¬SmtpStatus.accepted = SmtpStatus.rejected),
    if_neg (by decide : ¬SmtpStatus.accepted = SmtpStatus.unknown)]
  dsimp only
  have hcond : (opts.catchAllCheck &&
      decide (SmtpStatus.accepted = SmtpStatus.accepted) &&
      !mxHosts.isEmpty) = true := by
    rw [hcac, hmx]
    decide
  rw [if_pos hcond]
  have hdec : decide (env.fakeStats.result.status = SmtpStatus.accepted) =
      true := by
    rw [hfake]
    decide
  rw [hdec]
  have hconf : (synthesizeConfidence SmtpStatus.accepted (some true)
      (some (analyzeTimingDifference realAvg
        env.fakeStats.avgRcptToTime).zScore)
      (analyzeEmailPattern ((extractLocalPart email).getD "")).score
      (analyzeNameLikeness ((extractLocalPart email).getD ""))).1 =
      specCatchAllConfidence realAvg env.fakeStats.avgRcptToTime
        ((extractLocalPart email).getD "") := by
    rw [synthConf_catchall _ _ _ _ (by decide)]
    rw [analyzeTiming_zScore_eq]
    rfl
  split
  · exact ⟨hconf, rfl⟩
  · exact ⟨hconf, rfl⟩

/-- The accepted SMTP route of `verifyEmailBody`: with valid syntax,
valid DNS, a usable primary MX, the SMTP gate open and the throttle
clear, the body hands over to `verifyAfterSmtp` with the probe status
and average of the real-recipient probe oracle. -/
theorem body_smtp_route (env : VerifyEnv) (now : ℚ) (email : String)
    (opts : VerifyOptions) (st : VerifyState) (ne dom : String)
    (hsyn : isValidFormat email = true)
    (hdom : extractDomain email = some dom)
    (hdns : (resolveDns env now st.dnsCache dom).1.hasValidDns = true)
    (hmx : ((resolveDns env now st.dnsCache dom).1.mxRecords.map
      (fun mx => mx.exchange)).isEmpty = false)
    (hpm : ¬((resolveDns env now st.dnsCache dom).1.mxRecords.map
      (fun mx => mx.exchange)).headD "" = "")
    (hsmtp : opts.smtpCheck = true)
    (hthr : (canProceed DEFAULT_CONFIG now st.throttle
      (((resolveDns env now st.dnsCache dom).1.mxRecords.map
        (fun mx => mx.exchange)).headD "")).1 = true) :
    ∃ (st2 : VerifyState) (checks2 : VerificationChecks)
      (provider2 : Option MailProvider),
      verifyEmailBody env now email opts st (some ne) =
        verifyAfterSmtp env now email opts st2 (some ne)
          ((resolveDns env now st.dnsCache dom).1.mxRecords.map
            (fun mx => mx.exchange))
          provider2 checks2 env.realStats.result.status
          env.realStats.avgRcptToTime := by
  unfold verifyEmailBody
  rw [if_neg (by rw [hsyn]; decide), hdom]
  dsimp only
  rw [if_neg (by rw [hdns]; decide)]
  rw [if_pos (by rw [hsmtp, hmx]; simpa using hpm)]
  rw [if_neg (by rw [hthr]; decide)]
  exact ⟨_, _, _, rfl⟩

/-- C1: on the catch-all branch (cache miss, valid syntax and DNS, SMTP
gate open, real probe accepted, catch-all check enabled and synthetic
probe accepted) the final confidence equals exactly
`clamp(band(z) + penalty, 0, 0.85)` with
`z = |realAvg − fakeAvg| / max(0.3·fakeAvg, 30)` (0 when either average
is 0) — a formula in the two probe averages and the local part only, so
SPF/DMARC and the MX count cannot change the number — and the pattern
penalty is never positive. -/
theorem catchall_confidence_assembly (env : VerifyEnv) (now : ℚ)
    (email : String) (opts : VerifyOptions) (st : VerifyState)
    (ne dom : String)
    (hne : normalizeEmail email = some ne)
    (hmiss : (cacheGet now (emailCacheKey ne) st.emailCache).1 = none)
    (hsyn : isValidFormat email = true)
    (hdom : extractDomain email = some dom)
    (hdns : (resolveDns env now st.dnsCache dom).1.hasValidDns = true)
    (hmx : ((resolveDns env now st.dnsCache dom).1.mxRecords.map
      (fun mx => mx.exchange)).isEmpty = false)
    (hpm : ¬((resolveDns env now st.dnsCache dom).1.mxRecords.map
      (fun mx => mx.exchange)).headD "" = "")
    (hsmtp : opts.smtpCheck = true)
    (hthr : (canProceed DEFAULT_CONFIG now st.throttle
      (((resolveDns env now st.dnsCache dom).1.mxRecords.map
        (fun mx => mx.exchange)).headD "")).1 = true)
    (hreal : env.realStats.result.status = SmtpStatus.accepted)
    (hcac : opts.catchAllCheck = true)
    (hfake : env.fakeStats.result.status = SmtpStatus.accepted) :
    (verifyEmail env now email opts st).result.confidence =
      specCatchAllConfidence env.realStats.avgRcptToTime
        env.fakeStats.avgRcptToTime ((extractLocalPart email).getD "") ∧
    patternPenaltyOf ((extractLocalPart email).getD "") ≤ 0 ∧
    (verifyEmail env now email opts st).result.details.catchAll =
      some true := by
  have hroute := body_smtp_route env now email opts
    { st with emailCache := (cacheGet now (emailCacheKey ne) st.emailCache).2 }
    ne dom hsyn hdom hdns hmx hpm hsmtp hthr
  obtain ⟨st2, checks2, provider2, heq⟩ := hroute
  have hve : verifyEmail env now email opts st =
      verifyEmailBody env now email opts
        { st with
          emailCache := (cacheGet now (emailCacheKey ne) st.emailCache).2 }
        (some ne) := by
    unfold verifyEmail
    rw [hne]
    dsimp only
    rw [hmiss]
  rw [hve, heq, hreal]
  have hca := afterSmtp_catchall env now email opts st2 (some ne)
    ((resolveDns env now st.dnsCache dom).1.mxRecords.map
      (fun mx => mx.exchange))
    provider2 checks2 env.realStats.avgRcptToTime hcac hmx hfake
  exact ⟨hca.1, getPatternPenalty_nonpos _ _, hca.2⟩

/-- Witness for C1 at a concrete catch-all run: real average 100 ms,
fake average 500 ms gives z = 8/3 (moderate band 0.65), local part
`john.doe` has a good pattern (penalty 0), so the confidence is 0.65. -/
theorem catchall_confidence_assembly_witness :
    (verifyEmail exEnvCatchAll 0 "john.doe@example.com" DEFAULT_OPTIONS
      emptyState).result.confidence = 0.65 ∧
    (verifyEmail exEnvCatchAll 0 "john.doe@example.com" DEFAULT_OPTIONS
      emptyState).result.details.catchAll = some true := by
  have h := catchall_confidence_assembly exEnvCatchAll 0
    "john.doe@example.com" DEFAULT_OPTIONS emptyState "john.doe@example.com"
    "example.com" (by with_unfolding_all decide) (by with_unfolding_all decide)
    (by with_unfolding_all decide) (by with_unfolding_all decide)
    (by with_unfolding_all decide) (by with_unfolding_all decide)
    (by with_unfolding_all decide) (by with_unfolding_all decide)
    (by with_unfolding_all decide) (by with_unfolding_all decide)
    (by with_unfolding_all decide) (by with_unfolding_all decide)
  refine ⟨?_, h.2.2⟩
  rw [h.1]
  with_unfolding_all decide

/-- Setting a key makes it immediately findable with the new entry. -/
theorem assocFind?_assocSet_self {l : List (String × β)} (key : String)
    (v : β) : assocFind? key (assocSet key v l) = some v := by
  induction l with
  | nil => simp [assocSet, assocFind?]
  | cons p t ih =>
    unfold assocSet
    split
    · next heq => simp [assocFind?, heq]
    · next hne =>
      unfold assocFind?
      split
      · next heq2 =>
        exfalso
        exact hne heq2
      · exact ih

/-- A freshly stored entry (default TTL) is returned by a later get
within the TTL. -/
theorem cacheGet_cacheSet_self {c : CacheStore α} {now₁ now₂ : ℚ}
    (key : String) (v : α) (hts : now₂ ≤ now₁ + DEFAULT_TTL) :
    (cacheGet now₂ key (cacheSet now₁ key v none c)).1 = some v := by
  unfold cacheGet cacheSet
  dsimp only
  rw [assocFind?_assocSet_self]
  dsimp only
  rw [if_neg]
  simp only [Option.getD_none]
  exact not_lt.mpr hts

/-- With `normalizedEmail = some ne`, every write `verifyAfterSmtp`
performs stores the returned result under `emailCacheKey ne` in the
email cache it was handed, and the stored result's `email` field is the
raw input. -/
theorem afterSmtp_writes_shape (env : VerifyEnv) (now : ℚ) (email : String)
    (opts : VerifyOptions) (st : VerifyState) (ne : String)
    (mxHosts : List String) (provider : Option MailProvider)
    (checks : VerificationChecks) (smtpStatus : SmtpStatus) (realAvg : ℚ) :
    (verifyAfterSmtp env now email opts st (some ne) mxHosts provider checks
      smtpStatus realAvg).emailWrites = [] ∨
    ((verifyAfterSmtp env now email opts st (some ne) mxHosts provider checks
        smtpStatus realAvg).state.emailCache =
      cacheSet now (emailCacheKey ne)
        (verifyAfterSmtp env now email opts st (some ne) mxHosts provider
          checks smtpStatus realAvg).result none st.emailCache ∧
     (verifyAfterSmtp env now email opts st (some ne) mxHosts provider checks
        smtpStatus realAvg).result.email = email) := by
  unfold verifyAfterSmtp
  split
  · exact Or.inr ⟨rfl, rfl⟩
  · split
    · exact Or.inl rfl
    · exact Or.inr ⟨rfl, rfl⟩

/-- With `normalizedEmail = none`, `verifyAfterSmtp` writes nothing. -/
theorem afterSmtp_none_writes (env : VerifyEnv) (now : ℚ) (email : String)
    (opts : VerifyOptions) (st : VerifyState) (mxHosts : List String)
    (provider : Option MailProvider) (checks : VerificationChecks)
    (smtpStatus : SmtpStatus) (realAvg : ℚ) :
    (verifyAfterSmtp env now email opts st none mxHosts provider checks
      smtpStatus realAvg).emailWrites = [] := by
  unfold verifyAfterSmtp
  split
  · rfl
  · split
    · rfl
    · rfl

/-- With `normalizedEmail = none`, `verifyEmailBody` writes nothing. -/
theorem body_none_writes (env : VerifyEnv) (now : ℚ) (email : String)
    (opts : VerifyOptions) (st : VerifyState) :
    (verifyEmailBody env now email opts st none).emailWrites = [] := by
  unfold verifyEmailBody
  split
  · rfl
  · split
    · rfl
    · dsimp only
      split
      · rfl
      · split
        · split
          · rfl
          · exact afterSmtp_none_writes ..
        · exact afterSmtp_none_writes ..

/-- Every write `verifyEmailBody` performs (with `some ne`) stores the
returned result under `emailCacheKey ne` into the email cache it was
handed, and the stored result's `email` field is the raw input. -/
theorem body_writes_shape (env : VerifyEnv) (now : ℚ) (email : String)
    (opts : VerifyOptions) (st : VerifyState) (ne : String) :
    (verifyEmailBody env now email opts st (some ne)).emailWrites = [] ∨
    ((verifyEmailBody env now email opts st (some ne)).state.emailCache =
      cacheSet now (emailCacheKey ne)
        (verifyEmailBody env now email opts st (some ne)).result none
        st.emailCache ∧
     (verifyEmailBody env now email opts st (some ne)).result.email =
       email) := by
  unfold verifyEmailBody
  split
  · exact Or.inl rfl
  · split
    · exact Or.inl rfl
    · dsimp only
      split
      · exact Or.inr ⟨rfl, rfl⟩
      · split
        · split
          · exact Or.inl rfl
          · exact afterSmtp_writes_shape ..
        · exact afterSmtp_writes_shape ..

/-- A cache hit short-circuits `verifyEmail` to the stored result. -/
theorem verifyEmail_cache_hit (env : VerifyEnv) (now : ℚ) (email : String)
    (opts : VerifyOptions) (st : VerifyState) (ne : String)
    (hne : normalizeEmail email = some ne) (v : VerificationResult)
    (hhit : (cacheGet now (emailCacheKey ne) st.emailCache).1 = some v) :
    (verifyEmail env now email opts st).result = v := by
  unfold verifyEmail
  rw [hne]
  dsimp only
  rw [hhit]

/-- C10: two inputs equal after trimming and lower-casing share the
cache entry: when the first call completes on a caching path, a second
call within the default TTL returns the first call's stored result
unchanged — whose `email` field is the first call's verbatim input. -/
theorem verifyEmail_cache_roundtrip (env₁ env₂ : VerifyEnv)
    (now₁ now₂ : ℚ) (x y : String) (opts₁ opts₂ : VerifyOptions)
    (st : VerifyState)
    (hxy : normalizeEmail x = normalizeEmail y)
    (hw : (verifyEmail env₁ now₁ x opts₁ st).emailWrites ≠ [])
    (hts : now₂ ≤ now₁ + DEFAULT_TTL) :
    (verifyEmail env₂ now₂ y opts₂
        (verifyEmail env₁ now₁ x opts₁ st).state).result =
      (verifyEmail env₁ now₁ x opts₁ st).result ∧
    (verifyEmail env₁ now₁ x opts₁ st).result.email = x := by
  cases hnx : normalizeEmail x with
  | none =>
    exfalso
    apply hw
    unfold verifyEmail
    rw [hnx]
    exact body_none_writes ..
  | some ne =>
    have hshape : (verifyEmail env₁ now₁ x opts₁ st).emailWrites = [] ∨
        ((verifyEmail env₁ now₁ x opts₁ st).state.emailCache =
          cacheSet now₁ (emailCacheKey ne)
            (verifyEmail env₁ now₁ x opts₁ st).result none
            (cacheGet now₁ (emailCacheKey ne) st.emailCache).2 ∧
         (verifyEmail env₁ now₁ x opts₁ st).result.email = x) := by
      unfold verifyEmail
      rw [hnx]
      dsimp only
      cases hg : (cacheGet now₁ (emailCacheKey ne) st.emailCache).1 with
      | some cached => exact Or.inl rfl
      | none => exact body_writes_shape ..
    rcases hshape with h0 | ⟨hstate, hemail⟩
    · exact absurd h0 hw
    · refine ⟨?_, hemail⟩
      have hny : normalizeEmail y = some ne := by
        rw [← hxy]
        exact hnx
      have hhit : (cacheGet now₂ (emailCacheKey ne)
          (verifyEmail env₁ now₁ x opts₁ st).state.emailCache).1 =
          some (verifyEmail env₁ now₁ x opts₁ st).result := by
        rw [hstate]
        exact cacheGet_cacheSet_self _ _ hts
      exact verifyEmail_cache_hit env₂ now₂ y opts₂ _ ne hny _ hhit

/-- Witness for C10: `John@Example.com` then `john@example.com` (SMTP
check disabled so the first call caches its skipped-path result) — the
second call returns the first result verbatim. -/
theorem verifyEmail_cache_roundtrip_witness :
    (verifyEmail exEnvCatchAll 1000 "john@example.com" DEFAULT_OPTIONS
        (verifyEmail exEnvCatchAll 0 "John@Example.com" exOptsNoSmtp
          emptyState).state).result =
      (verifyEmail exEnvCatchAll 0 "John@Example.com" exOptsNoSmtp
        emptyState).result ∧
    (verifyEmail exEnvCatchAll 0 "John@Example.com" exOptsNoSmtp
      emptyState).result.email = "John@Example.com" := by
  exact verifyEmail_cache_roundtrip exEnvCatchAll exEnvCatchAll 0 1000
    "John@Example.com" "john@example.com" exOptsNoSmtp DEFAULT_OPTIONS
    emptyState (by decide) (by with_unfolding_all decide)
    (by norm_num [DEFAULT_TTL])

end EmailVerifier
